import Mathlib

/-!
Shallow embedding of the core of the `minecraft.rs` server (wire-buffer
primitives, the framed codec, the block/chunk/world store, the player model
and the per-client session handler), together with theorems checking the
project specification against it.

Conventions used throughout the embedding:
* Rust machine integers are modelled as `Nat`/`Int`; two's-complement
  truncating casts are written out with `% 2 ^ w` (`i32cast`, `i16wrap`,
  `usizeCast`, `toSignedW`).
* Byte buffers (`BytesMut`, `&[u8]`) are `List Nat`, every element a `u8`
  value (< 256 by type on the Rust side).
* Rust `x >> n` on a signed integer (arithmetic shift) is floor division;
  for a positive divisor Lean's `Int` division `/` is exactly that, and
  `x & (2^n - 1)` on a signed integer is `x % 2^n` (Lean `Int.emod`, which is
  nonnegative for a positive modulus).
* Operations that can panic on the Rust side (slice indexing out of bounds,
  `expect`, reading from an exhausted buffer, enum conversions on invalid
  discriminants, non-terminating loops under a fuel bound) return `Option`
  (`none` = panic / divergence) or `Except CodecError`.
* `f32`/`f64` fields carry the IEEE-754 *bit pattern* as a `Nat`; the codec
  only moves these bit patterns to and from the wire, so no floating-point
  arithmetic is modelled.  The two places where the source does perform
  real float arithmetic (`put_angle`, the `* 32.0` scaling in
  `S0ESpawnObject` encoding) are outside the embedding and marked as such.
* Rust `String` values are kept as their UTF-8 byte lists; the
  `String::from_utf8(..).expect(..)` validation is not re-modelled (it can
  only fire on adversarial input that no theorem below constructs).
-/

namespace MCRS

/-- Truncating cast of a nonnegative machine value (`usize`/`u64`) to Rust
`i32`: keep the low 32 bits, reinterpret as two's complement. -/
def i32cast (v : Nat) : Int :=
  let m : Nat := v % 2 ^ 32
  if 2 ^ 31 ≤ m then (m : Int) - 2 ^ 32 else (m : Int)

/-- Wrap-around of an integer into the Rust `i16` range (two's complement). -/
def i16wrap (v : Int) : Int :=
  (v + 2 ^ 15) % 2 ^ 16 - 2 ^ 15

/-- Rust `x as usize` applied to a signed value: sign-extend into the 64-bit
unsigned range (negative `x` becomes `2^64 + x`). -/
def usizeCast (v : Int) : Nat :=
  (v % 2 ^ 64).toNat

/-- Reinterpret the low `w` bits of an unsigned value as a `w`-bit
two's-complement signed integer (the sign-extension step used by
`get_i16`/`get_i64` and `BlockPos::to_signed`). -/
def toSignedW (w : Nat) (v : Nat) : Int :=
  if 2 ^ (w - 1) ≤ v then (v : Int) - 2 ^ w else (v : Int)

/-! ## VarInt primitives (src/mc/codec.rs, `MinecraftBufExt` and
`calc_var_int_size`) -/

/-- Fuel-bounded unfolding of the loop in `MinecraftBufExt::put_var_int`
(src/mc/codec.rs:64-76).  One iteration: `cur_byte = value & 0x7f`
(= `value % 128`, nonnegative `emod`); `value >>= 7` (arithmetic shift,
= floor division by 128); `cur_byte |= 0x80` exactly when the shifted value
is nonzero, i.e. when the loop will continue; push `cur_byte`; break when the
shifted value is zero.  The Rust loop is unbounded; `none` means it did not
terminate within `fuel` iterations. -/
def putVarIntLoop : Nat → Int → List Nat → Option (List Nat)
  | 0, _, _ => none
  | fuel + 1, value, acc =>
    let curByte : Nat := (value % 128).toNat
    let value2 := value / 128
    if value2 = 0 then some (acc ++ [curByte])
    else putVarIntLoop fuel value2 (acc ++ [curByte + 128])

/-- The byte list appended by `put_var_int`.  Five iterations of fuel suffice
for every input on which the source loop terminates at all (every
`0 ≤ v < 2 ^ 31`, since `128 ^ 5 > 2 ^ 31`; `putVarIntLoop_neg_none` below
shows the loop never terminates on negative input, where this function
returns the junk value `[]`). -/
def putVarInt (v : Int) : List Nat :=
  (putVarIntLoop 5 v []).getD []

/-- Reference recursion for the VarInt byte string of a nonnegative value:
low 7 bits first, continuation bit `0x80` on every non-final byte. -/
def varIntBytes (v : Nat) : List Nat :=
  if v < 128 then [v] else (v % 128 + 128) :: varIntBytes (v / 128)
termination_by v
decreasing_by exact Nat.div_lt_self (by omega) (by omega)

/-- Fuel-bounded unfolding of the loop in `calc_var_int_size`
(src/mc/codec.rs:93-103): shift by 7 (floor division by 128), count, stop
when the value reaches zero. -/
def calcVarIntSizeLoop : Nat → Int → Nat → Option Nat
  | 0, _, _ => none
  | fuel + 1, value, size =>
    let value2 := value / 128
    if value2 = 0 then some (size + 1) else calcVarIntSizeLoop fuel value2 (size + 1)

/-- `calc_var_int_size` for the values on which the source loop terminates
(cf. `putVarInt`). -/
def calcVarIntSize (v : Int) : Nat :=
  (calcVarIntSizeLoop 5 v 0).getD 0

/-- Loop body of `MinecraftBufExt::get_var_int` (src/mc/codec.rs:40-52).
`i` is the loop counter of `for i in 0..4`; `byte & 0x7f = byte % 128`, and
for a `u8` the test `byte & 0x80 == 0` is `byte < 128`.  The `result |=`
accumulation ors bit ranges that are disjoint (the accumulator stays below
`2 ^ (7 * i)`), so it is written as `+`.  After the `i = 3` iteration the
loop exits even if the continuation bit was still set.  `none` models the
`get_u8` panic on an exhausted buffer. -/
def getVarIntAux : Nat → List Nat → Nat → Option (Nat × List Nat)
  | _, [], _ => none
  | i, b :: rest, result =>
    let value := b % 128
    let result2 := result + value * 2 ^ (7 * i)
    if b < 128 then some (result2, rest)
    else if i = 3 then some (result2, rest)
    else getVarIntAux (i + 1) rest result2

/-- `get_var_int`: consume up to four bytes, return the accumulated value and
the remaining buffer.  The result is nonnegative and below `2 ^ 28`, hence
returned as `Nat` (on the Rust side it is a nonnegative `i32`). -/
def getVarInt (buf : List Nat) : Option (Nat × List Nat) :=
  getVarIntAux 0 buf 0

/-- `has_complete_var_int` (src/mc/codec.rs:30-38): scan the first
`min(4, len)` bytes for one with the continuation bit clear. -/
def hasCompleteVarInt (buf : List Nat) : Bool :=
  (buf.take 4).any (fun b => b < 128)

/-! ## Fixed-width buffer reads and writes

All multi-byte scalars on the wire are big-endian (`bytes` crate `get_*` /
`put_*` defaults); only the in-chunk block-state array is little-endian. -/

/-- Read one byte (`get_u8`); `none` models the panic on an empty buffer. -/
def getU8 (buf : List Nat) : Option (Nat × List Nat) :=
  match buf with
  | [] => none
  | b :: rest => some (b, rest)

/-- Read `n` bytes big-endian into an unsigned value (`get_u16`, `get_u64`,
and the raw bit patterns for `get_f32`/`get_f64`). -/
def getBytesBE (n : Nat) (buf : List Nat) : Option (Nat × List Nat) :=
  if n ≤ buf.length then
    some ((buf.take n).foldl (fun a b => a * 256 + b) 0, buf.drop n)
  else none

/-- Read a big-endian `i16` (`get_i16`). -/
def getI16 (buf : List Nat) : Option (Int × List Nat) :=
  (getBytesBE 2 buf).map (fun r => (toSignedW 16 r.1, r.2))

/-- Read a big-endian `i64` (`get_i64`). -/
def getI64 (buf : List Nat) : Option (Int × List Nat) :=
  (getBytesBE 8 buf).map (fun r => (toSignedW 64 r.1, r.2))

/-- Read a `bool` (`get_bool`): one byte, nonzero means `true`. -/
def getBool (buf : List Nat) : Option (Bool × List Nat) :=
  (getU8 buf).map (fun r => (r.1 ≠ 0, r.2))

/-- Read a VarInt-length-prefixed string (`get_string`,
src/mc/codec.rs:54-58) and keep its UTF-8 bytes.  `split_to` panics when the
announced length exceeds the buffer. -/
def getStringP (buf : List Nat) : Option (List Nat × List Nat) := do
  let (strLen, buf) ← getVarInt buf
  if strLen ≤ buf.length then some (buf.take strLen, buf.drop strLen) else none

/-- Write one byte (`put_u8`). -/
def putU8 (v : Nat) : List Nat :=
  [v % 256]

/-- Big-endian byte string of width `w` for an unsigned value (`put_u16`,
`put_u64`, `put_u128`, and the raw bit patterns for `put_f32`/`put_f64`). -/
def natBytesBE (w : Nat) (v : Nat) : List Nat :=
  (List.range w).map (fun i => v / 256 ^ (w - 1 - i) % 256)

/-- Write a big-endian `u16`. -/
def putU16 (v : Nat) : List Nat :=
  natBytesBE 2 v

/-- Write a big-endian `u64`. -/
def putU64 (v : Nat) : List Nat :=
  natBytesBE 8 v

/-- Write a big-endian `u128` (`put_u128`, used for UUIDs). -/
def putU128 (v : Nat) : List Nat :=
  natBytesBE 16 v

/-- Write a big-endian `i16`. -/
def putI16 (v : Int) : List Nat :=
  natBytesBE 2 (v % 2 ^ 16).toNat

/-- Write a big-endian `i32`. -/
def putI32 (v : Int) : List Nat :=
  natBytesBE 4 (v % 2 ^ 32).toNat

/-- Write a big-endian `i64`. -/
def putI64 (v : Int) : List Nat :=
  natBytesBE 8 (v % 2 ^ 64).toNat

/-- Write an `f32` bit pattern big-endian. -/
def putF32bits (v : Nat) : List Nat :=
  natBytesBE 4 v

/-- Write an `f64` bit pattern big-endian. -/
def putF64bits (v : Nat) : List Nat :=
  natBytesBE 8 v

/-- Write a `bool` (`put_bool`). -/
def putBool (b : Bool) : List Nat :=
  [if b then 1 else 0]

/-- Write a VarInt-length-prefixed string (`put_string`): the length is cast
`as i32` before being written. -/
def putString (s : List Nat) : List Nat :=
  putVarInt (i32cast s.length) ++ s

/-! ## World data model (src/world/mod.rs) -/

/-- Block faces (`BlockFace`), `Special = 255`. -/
inductive BlockFace
  | negY
  | posY
  | negZ
  | posZ
  | negX
  | posX
  | special
deriving DecidableEq

/-- `From<u8> for BlockFace`; `none` models the `panic!("Invalid block face")`
arm. -/
def BlockFace.fromU8 (v : Nat) : Option BlockFace :=
  match v with
  | 0 => some .negY
  | 1 => some .posY
  | 2 => some .negZ
  | 3 => some .posZ
  | 4 => some .negX
  | 5 => some .posX
  | 255 => some .special
  | _ => none

/-- `BlockPos`: a signed integer triple. -/
structure BlockPos where
  x : Int
  y : Int
  z : Int
deriving DecidableEq

/-- `BlockPos::offset` (src/world/mod.rs:80-90); `none` models the panic on
`Special`. -/
def BlockPos.offsetFace (p : BlockPos) (face : BlockFace) : Option BlockPos :=
  match face with
  | .posY => some ⟨p.x, p.y + 1, p.z⟩
  | .negY => some ⟨p.x, p.y - 1, p.z⟩
  | .posZ => some ⟨p.x, p.y, p.z + 1⟩
  | .negZ => some ⟨p.x, p.y, p.z - 1⟩
  | .posX => some ⟨p.x + 1, p.y, p.z⟩
  | .negX => some ⟨p.x - 1, p.y, p.z⟩
  | .special => none

/-- `BlockPos::to_u64` (src/world/mod.rs:92-97):
`((x & 0x3FFFFFF) << 38) | ((y & 0xFFF) << 26) | (z & 0x3FFFFFF)` on the
sign-extended `u64` images of the fields.  `x as u64 & 0x3FFFFFF` is
`x % 2 ^ 26` (nonnegative `emod`); the three shifted fields occupy disjoint
bit ranges (26 + 12 + 26 = 64), so the `|`s are written as `+`. -/
def BlockPos.toU64 (p : BlockPos) : Nat :=
  (p.x % 2 ^ 26).toNat * 2 ^ 38 + (p.y % 2 ^ 12).toNat * 2 ^ 26 + (p.z % 2 ^ 26).toNat

/-- `BlockPos::to_signed` (src/world/mod.rs:99-105): `val as i32`, then
subtract `2 ^ bits` when the value is at least `2 ^ (bits - 1)`. -/
def BlockPos.toSignedBits (val : Nat) (bits : Nat) : Int :=
  let v := i32cast val
  if 2 ^ (bits - 1) ≤ v then v - 2 ^ bits else v

/-- `From<u64> for BlockPos` (src/world/mod.rs:108-116): `value >> 38` is
division by `2 ^ 38`; `(value >> 26) & 0xFFF` is `value / 2 ^ 26 % 2 ^ 12`;
`value << 38 >> 38` (logical shifts on `u64`, the left shift wrapping mod
`2 ^ 64`) is `value % 2 ^ 26`. -/
def BlockPos.fromU64 (value : Nat) : BlockPos where
  x := BlockPos.toSignedBits (value / 2 ^ 38) 26
  y := BlockPos.toSignedBits (value / 2 ^ 26 % 2 ^ 12) 12
  z := BlockPos.toSignedBits (value * 2 ^ 38 % 2 ^ 64 / 2 ^ 38) 26

/-- `ChunkPos`: a signed integer pair. -/
structure ChunkPos where
  x : Int
  z : Int
deriving DecidableEq

/-- `ChunkPos::from_block_pos`: arithmetic right shift by 4 = floor division
by 16. -/
def ChunkPos.fromBlockPos (x z : Int) : ChunkPos :=
  ⟨x / 16, z / 16⟩

/-- `Section`: a dense array of 4096 `u16` block states (always constructed
with length 4096). -/
structure Section where
  data : List Nat
deriving DecidableEq

/-- `Section::new`: all air. -/
def Section.new : Section :=
  ⟨List.replicate 4096 0⟩

/-- `Section::get_block` (src/world/mod.rs:144-151): out-of-range coordinates
yield 0; otherwise index `x + 16 * (z + 16 * y)` (in bounds after the guard,
and every section has 4096 entries, so the slice index cannot panic). -/
def Section.getBlock (s : Section) (x y z : Int) : Nat :=
  if x < 0 ∨ y < 0 ∨ z < 0 ∨ 15 < x ∨ 15 < y ∨ 15 < z then 0
  else s.data.getD (x + 16 * (z + 16 * y)).toNat 0

/-- `Section::set_block` (src/world/mod.rs:153-160): out-of-range coordinates
are silently ignored; otherwise write at `x + 16 * (z + 16 * y)`. -/
def Section.setBlock (s : Section) (x y z : Int) (blockState : Nat) : Section :=
  if x < 0 ∨ y < 0 ∨ z < 0 ∨ 15 < x ∨ 15 < y ∨ 15 < z then s
  else ⟨s.data.set (x + 16 * (z + 16 * y)).toNat blockState⟩

/-- `Chunk`: 16 optional sections stacked by `y`, a 256-entry biome map, and
the chunk coordinate. -/
structure Chunk where
  x : Int
  z : Int
  sections : List (Option Section)
  biomes : List Nat
deriving DecidableEq

/-- `Chunk::new`: no sections, zeroed biomes. -/
def Chunk.new (x z : Int) : Chunk :=
  ⟨x, z, List.replicate 16 none, List.replicate 256 0⟩

/-- `Chunk::get_block` (src/world/mod.rs:181-188): `section_idx = y >> 4`
(floor division by 16).  `self.sections[section_idx as usize]` panics
(`none`) unless `0 ≤ section_idx < 16`; an absent section reads as 0, a
present one as `section.get_block(x, y & 0x0f, z)`. -/
def Chunk.getBlock (c : Chunk) (x y z : Int) : Option Nat :=
  let sectionIdx := y / 16
  if 0 ≤ sectionIdx ∧ sectionIdx < (c.sections.length : Int) then
    match c.sections.getD sectionIdx.toNat none with
    | some sec => some (sec.getBlock x (y % 16) z)
    | none => some 0
  else none

/-- `Chunk::set_block` (src/world/mod.rs:209-221): `section_idx = y >> 4`;
`self.sections[section_idx as usize]` panics (`none`) unless
`0 ≤ section_idx < 16` (a negative index cast `as usize` is astronomically
large).  An absent section is first replaced by `Section::new()`; either way
the section receives `set_block(x, y & 0x0f, z, state)`. -/
def Chunk.setBlock (c : Chunk) (x y z : Int) (blockState : Nat) : Option Chunk :=
  let sectionIdx := y / 16
  if 0 ≤ sectionIdx ∧ sectionIdx < (c.sections.length : Int) then
    let base := match c.sections.getD sectionIdx.toNat none with
      | some sec => sec
      | none => Section.new
    some { c with sections := c.sections.set sectionIdx.toNat (some (base.setBlock x (y % 16) z blockState)) }
  else none

/-- The world: `DashMap<ChunkPos, Arc<Mutex<Chunk>>>`, modelled as an
association list read through `World.getChunk` (insertion shadows). -/
abbrev World := List (ChunkPos × Chunk)

/-- `World::get_chunk`. -/
def World.getChunk (w : World) (pos : ChunkPos) : Option Chunk :=
  (w.find? (fun e => e.1 = pos)).map (fun e => e.2)

/-- `World::create_chunk`: return the existing chunk, or install and return a
fresh air chunk keyed by `pos`. -/
def World.createChunk (w : World) (pos : ChunkPos) : Chunk × World :=
  match World.getChunk w pos with
  | some c => (c, w)
  | none => (Chunk.new pos.x pos.z, (pos, Chunk.new pos.x pos.z) :: w)

/-- `World::get_block` (src/world/mod.rs:269-275): absent chunk reads as 0;
a present chunk is read at `(x & 0x0f, y, z & 0x0f)`; `none` propagates the
`Chunk::get_block` panic. -/
def World.getBlock (w : World) (x y z : Int) : Option Nat :=
  match World.getChunk w (ChunkPos.fromBlockPos x z) with
  | some chunk => chunk.getBlock (x % 16) y (z % 16)
  | none => some 0

/-- `World::set_block` (src/world/mod.rs:277-284): create the chunk if
absent, then `Chunk::set_block(x & 0x0f, y, z & 0x0f, state)`; `none`
propagates the `Chunk::set_block` panic. -/
def World.setBlock (w : World) (x y z : Int) (blockState : Nat) : Option World :=
  let (chunk, w2) := World.createChunk w (ChunkPos.fromBlockPos x z)
  (chunk.setBlock (x % 16) y (z % 16) blockState).map
    (fun c2 => (ChunkPos.fromBlockPos x z, c2) :: w2)

/-! ## Game model (src/model.rs, src/mc/proto.rs) -/

/-- `GameMode`. -/
inductive GameMode
  | survival
  | creative
  | adventure
  | spectator
deriving DecidableEq

/-- `From<u8> for GameMode` (src/model.rs:16-26); `none` models the
`panic!("Invalid game mode {}")` arm for every value outside `0..=3`. -/
def GameMode.fromU8 (v : Nat) : Option GameMode :=
  match v with
  | 0 => some .survival
  | 1 => some .creative
  | 2 => some .adventure
  | 3 => some .spectator
  | _ => none

/-- Discriminant of `GameMode` (its `as u8` / `as i32` value). -/
def GameMode.toNat : GameMode → Nat
  | .survival => 0
  | .creative => 1
  | .adventure => 2
  | .spectator => 3

/-- IEEE-754 `f32` bit pattern of `game_mode as i32 as f32`
(0.0, 1.0, 2.0, 3.0). -/
def GameMode.f32Bits : GameMode → Nat
  | .survival => 0
  | .creative => 0x3F800000
  | .adventure => 0x40000000
  | .spectator => 0x40400000

/-- `ItemStack`. -/
structure ItemStack where
  id : Int
  count : Nat
  damage : Nat
deriving DecidableEq

/-- `ItemStack::default`: empty slot sentinel. -/
def ItemStack.default : ItemStack :=
  ⟨-1, 0, 0⟩

/-- `ItemStack::read` (src/model.rs:46-57): `i16` id; count and damage only
when the id is not the empty sentinel. -/
def ItemStack.read (buf : List Nat) : Option (ItemStack × List Nat) := do
  let (id, buf) ← getI16 buf
  if id ≠ -1 then do
    let (count, buf) ← getU8 buf
    let (damage, buf) ← getBytesBE 2 buf
    pure (⟨id, count, damage⟩, buf)
  else
    pure (⟨id, 0, 0⟩, buf)

/-- `ItemStack::is_present`. -/
def ItemStack.isPresent (s : ItemStack) : Prop :=
  s.id ≠ -1

instance (s : ItemStack) : Decidable s.isPresent := by
  unfold ItemStack.isPresent; infer_instance

/-- `ItemStack::is_block`: id at most 255. -/
def ItemStack.isBlock (s : ItemStack) : Prop :=
  s.id ≤ 255

instance (s : ItemStack) : Decidable s.isBlock := by
  unfold ItemStack.isBlock; infer_instance

/-- `AbilityFlags`. -/
structure AbilityFlags where
  allowFlying : Bool
  isCreative : Bool
  isFlying : Bool
  godMode : Bool
deriving DecidableEq

/-- `AbilityFlags::from_game_mode` (src/mc/proto.rs:88-95), argument order
`(allow_flying, is_creative, is_flying, god_mode)`. -/
def AbilityFlags.fromGameMode : GameMode → AbilityFlags
  | .survival => ⟨false, false, false, false⟩
  | .creative => ⟨true, true, false, true⟩
  | .adventure => ⟨false, false, false, false⟩
  | .spectator => ⟨true, false, true, true⟩

/-- Flag byte written by the `S39PlayerAbilities` encoder
(src/mc/codec.rs:420-441): bit 0 god mode, bit 1 flying, bit 2 allow flying,
bit 3 creative. -/
def AbilityFlags.toByte (f : AbilityFlags) : Nat :=
  (if f.godMode then 1 else 0) + (if f.isFlying then 2 else 0)
    + (if f.allowFlying then 4 else 0) + (if f.isCreative then 8 else 0)

/-- `GameStateReason` with its discriminant (`as u8`). -/
inductive GameStateReason
  | invalidBed
  | endRaining
  | beginRaining
  | changeGameMode
  | enterCredits
  | demoMessage
  | arrowHitting
  | fadeValue
  | fadeTime
  | mobAppearance
deriving DecidableEq

/-- Discriminant of `GameStateReason`. -/
def GameStateReason.toNat : GameStateReason → Nat
  | .invalidBed => 0
  | .endRaining => 1
  | .beginRaining => 2
  | .changeGameMode => 3
  | .enterCredits => 4
  | .demoMessage => 5
  | .arrowHitting => 6
  | .fadeValue => 7
  | .fadeTime => 8
  | .mobAppearance => 9

/-- `DiggingStatus`. -/
inductive DiggingStatus
  | startDigging
  | cancelDigging
  | finishDigging
  | dropStack
  | dropItem
  | finishAction
deriving DecidableEq

/-- `From<u8> for DiggingStatus`; `none` models the panic on unknown
values. -/
def DiggingStatus.fromU8 (v : Nat) : Option DiggingStatus :=
  match v with
  | 0 => some .startDigging
  | 1 => some .cancelDigging
  | 2 => some .finishDigging
  | 3 => some .dropStack
  | 4 => some .dropItem
  | 5 => some .finishAction
  | _ => none

/-- `EntityMetaData` variants; float payloads carry bit patterns. -/
inductive EntityMetaData
  | byte (v : Nat)
  | short (v : Int)
  | int (v : Int)
  | float (bits : Nat)
  | str (s : List Nat)
  | slot (itm : ItemStack)
  | vec3i (x y z : Int)
  | vec3f (x y z : Nat)
deriving DecidableEq

/-- `EntityMetaData::type_id`. -/
def EntityMetaData.typeId : EntityMetaData → Nat
  | .byte _ => 0
  | .short _ => 1
  | .int _ => 2
  | .float _ => 3
  | .str _ => 4
  | .slot _ => 5
  | .vec3i .. => 6
  | .vec3f .. => 7

/-- `EntityMetaEntry`. -/
structure EntityMetaEntry where
  index : Nat
  data : EntityMetaData
deriving DecidableEq

/-- `PlayerListItemAction`. -/
inductive PlayerListItemAction
  | addPlayer (name : List Nat) (gameMode : GameMode) (ping : Int) (displayName : Option (List Nat))
  | updateGameMode (gameMode : GameMode)
  | updateLatency (ping : Int)
  | updateDisplayName (displayName : Option (List Nat))
  | removePlayer
deriving DecidableEq

/-- `PlayerListItemAction::id`. -/
def PlayerListItemAction.idNum : PlayerListItemAction → Int
  | .addPlayer .. => 0
  | .updateGameMode _ => 1
  | .updateLatency _ => 2
  | .updateDisplayName _ => 3
  | .removePlayer => 4

/-- `PlayState`: the protocol phase. -/
inductive PlayState
  | handshake
  | status
  | login
  | play
deriving DecidableEq

/-- `TryFrom<i32> for PlayState`; only 1 (Status) and 2 (Login) convert. -/
def PlayState.tryFrom (v : Nat) : Option PlayState :=
  match v with
  | 1 => some .status
  | 2 => some .login
  | _ => none

/-! ## Packet catalog (src/mc/proto.rs plus the Play-phase variants
referenced by src/mc/codec.rs and src/client.rs) -/

/-- The packet catalog.  Client-bound (`sNN…`) and server-bound (`cNN…`)
variants share one type, as in the source.  Float fields carry IEEE-754 bit
patterns; strings carry UTF-8 bytes; `uuid` fields carry the `u128` value. -/
inductive Packet
  | c00Handshake (protocolVersion : Nat) (serverAddress : List Nat) (serverPort : Nat)
      (nextState : PlayState)
  | c00StatusRequest
  | c01StatusPing (timestamp : Int)
  | s00StatusResponse (status : List Nat)
  | s01StatusPong (timestamp : Int)
  | c00LoginStart (username : List Nat)
  | s02LoginSuccess (uuid : List Nat) (username : List Nat)
  | s03LoginCompression (threshold : Int)
  | c00KeepAlive (id : Nat)
  | c01ChatMessage (message : List Nat)
  | c03Player (onGround : Bool)
  | c04PlayerPos (x y z : Nat) (onGround : Bool)
  | c05PlayerRot (yaw pitch : Nat) (onGround : Bool)
  | c06PlayerPosRot (x y z yaw pitch : Nat) (onGround : Bool)
  | c07PlayerDigging (status : DiggingStatus) (location : BlockPos) (face : Nat)
  | c08PlayerBlockPlacement (location : BlockPos) (face : BlockFace)
  | c09HeldItemChange (slot : Int)
  | c0aAnimation
  | c10SetCreativeSlot (slotId : Int) (item : ItemStack)
  | s00KeepAlive (timestamp : Int)
  | s01JoinGame (entityId : Int) (gameMode : GameMode) (dimension difficulty playerListSize : Nat)
      (worldType : List Nat) (reducedDebugInfo : Bool)
  | s02ChatMessage (jsonData : List Nat) (position : Nat)
  | s08SetPlayerPosition (x y z : Nat) (yaw pitch : Nat) (flags : Nat)
  | s21ChunkData (x z : Int)
  | s23BlockChange (location : BlockPos) (blockState : Nat)
  | s26MapChunkBulk (skylight : Bool) (chunks : List Chunk)
  | s0eSpawnObject (entityId : Int) (kind : Nat) (x y z : Nat) (pitch yaw : Nat) (data : Int)
  | s1cEntityMeta (entityId : Int) (entries : List EntityMetaEntry)
  | s2bChangeGameState (reason : GameStateReason) (value : Nat)
  | s38PlayerListItem (uuid : Nat) (action : PlayerListItemAction)
  | s39PlayerAbilities (flags : AbilityFlags) (flyingSpeed walkingSpeed : Nat)
deriving DecidableEq

/-- `Packet::id` (src/mc/proto.rs:299-333): the numeric opcode, unique only
per phase and direction.  The checked-in proto.rs snapshot predates the
variants `C08..C10` and `S23BlockChange` that codec.rs and client.rs use;
their opcodes follow the names (and the spec opcode table, §6.4). -/
def Packet.idNum : Packet → Int
  | .c00Handshake .. => 0x00
  | .c00StatusRequest => 0x00
  | .c01StatusPing _ => 0x01
  | .s00StatusResponse _ => 0x00
  | .s01StatusPong _ => 0x01
  | .c00LoginStart _ => 0x00
  | .s02LoginSuccess .. => 0x02
  | .s03LoginCompression _ => 0x03
  | .c00KeepAlive _ => 0x00
  | .c01ChatMessage _ => 0x01
  | .c03Player _ => 0x03
  | .c04PlayerPos .. => 0x04
  | .c05PlayerRot .. => 0x05
  | .c06PlayerPosRot .. => 0x06
  | .c07PlayerDigging .. => 0x07
  | .c08PlayerBlockPlacement .. => 0x08
  | .c09HeldItemChange _ => 0x09
  | .c0aAnimation => 0x0A
  | .c10SetCreativeSlot .. => 0x10
  | .s00KeepAlive _ => 0x00
  | .s01JoinGame .. => 0x01
  | .s02ChatMessage .. => 0x02
  | .s08SetPlayerPosition .. => 0x08
  | .s1cEntityMeta .. => 0x1C
  | .s21ChunkData .. => 0x21
  | .s23BlockChange .. => 0x23
  | .s26MapChunkBulk .. => 0x26
  | .s0eSpawnObject .. => 0x0E
  | .s2bChangeGameState .. => 0x2B
  | .s38PlayerListItem .. => 0x38
  | .s39PlayerAbilities .. => 0x39

/-! ## Decoder (src/mc/codec.rs, `impl Decoder for MinecraftCodec` and the
per-phase `decode_*_packet` functions) -/

/-- Errors and panics surfaced by the codec: the oversize frame
`io::Error` and any panic inside decoding/encoding. -/
inductive CodecError
  | packetTooLarge
  | panicked
deriving DecidableEq

/-- `DecoderState`. -/
inductive DecoderState
  | header
  | body (len : Nat)
deriving DecidableEq

/-- The mutable state of `MinecraftCodec`. -/
structure CodecState where
  compressionThreshold : Nat
  playState : PlayState
  decoderState : DecoderState
deriving DecidableEq

/-- `MinecraftCodec::new`. -/
def CodecState.new : CodecState :=
  ⟨0, .handshake, .header⟩

/-- Lift a field parse to the dispatch result: a parser `none` is a panic
inside a `decode_*_packet` body. -/
def ofParse (r : Option Packet) : Except CodecError (Option Packet) :=
  match r with
  | some p => .ok (some p)
  | none => .error .panicked

/-- Body parse of `C00Handshake` (src/mc/codec.rs:138-149); the
`PlayState::try_from(..).expect(..)` panic is `none`. -/
def parseHandshake (b : List Nat) : Option Packet := do
  let (protocolVersion, b) ← getVarInt b
  let (serverAddress, b) ← getStringP b
  let (serverPort, b) ← getBytesBE 2 b
  let (nextStateNum, _) ← getVarInt b
  let nextState ← PlayState.tryFrom nextStateNum
  pure (.c00Handshake protocolVersion serverAddress serverPort nextState)

/-- `decode_handshake_packet`. -/
def decodeHandshakePacket (packetId : Nat) (b : List Nat) : Except CodecError (Option Packet) :=
  match packetId with
  | 0x00 => ofParse (parseHandshake b)
  | _ => .ok none

/-- `decode_status_packet` (src/mc/codec.rs:151-159). -/
def decodeStatusPacket (packetId : Nat) (b : List Nat) : Except CodecError (Option Packet) :=
  match packetId with
  | 0x00 => .ok (some .c00StatusRequest)
  | 0x01 => ofParse (do
      let (timestamp, _) ← getI64 b
      pure (.c01StatusPing timestamp))
  | _ => .ok none

/-- `decode_login_packet` (src/mc/codec.rs:161-168). -/
def decodeLoginPacket (packetId : Nat) (b : List Nat) : Except CodecError (Option Packet) :=
  match packetId with
  | 0x00 => ofParse (do
      let (username, _) ← getStringP b
      pure (.c00LoginStart username))
  | _ => .ok none

/-- `decode_play_packet` (src/mc/codec.rs:170-219). -/
def decodePlayPacket (packetId : Nat) (b : List Nat) : Except CodecError (Option Packet) :=
  match packetId with
  | 0x00 => ofParse (do
      let (id, _) ← getVarInt b
      pure (.c00KeepAlive id))
  | 0x01 => ofParse (do
      let (message, _) ← getStringP b
      pure (.c01ChatMessage message))
  | 0x03 => ofParse (do
      let (onGround, _) ← getBool b
      pure (.c03Player onGround))
  | 0x04 => ofParse (do
      let (x, b) ← getBytesBE 8 b
      let (y, b) ← getBytesBE 8 b
      let (z, b) ← getBytesBE 8 b
      let (onGround, _) ← getBool b
      pure (.c04PlayerPos x y z onGround))
  | 0x05 => ofParse (do
      let (yaw, b) ← getBytesBE 4 b
      let (pitch, b) ← getBytesBE 4 b
      let (onGround, _) ← getBool b
      pure (.c05PlayerRot yaw pitch onGround))
  | 0x06 => ofParse (do
      let (x, b) ← getBytesBE 8 b
      let (y, b) ← getBytesBE 8 b
      let (z, b) ← getBytesBE 8 b
      let (yaw, b) ← getBytesBE 4 b
      let (pitch, b) ← getBytesBE 4 b
      let (onGround, _) ← getBool b
      pure (.c06PlayerPosRot x y z yaw pitch onGround))
  | 0x07 => ofParse (do
      let (statusNum, b) ← getU8 b
      let status ← DiggingStatus.fromU8 statusNum
      let (locNum, b) ← getBytesBE 8 b
      let (face, _) ← getU8 b
      pure (.c07PlayerDigging status (BlockPos.fromU64 locNum) face))
  | 0x08 => ofParse (do
      let (locNum, b) ← getBytesBE 8 b
      let (faceNum, _) ← getU8 b
      let face ← BlockFace.fromU8 faceNum
      pure (.c08PlayerBlockPlacement (BlockPos.fromU64 locNum) face))
  | 0x09 => ofParse (do
      let (slot, _) ← getI16 b
      pure (.c09HeldItemChange slot))
  | 0x0A => .ok (some .c0aAnimation)
  | 0x10 => ofParse (do
      let (slotId, b) ← getI16 b
      let (item, _) ← ItemStack.read b
      pure (.c10SetCreativeSlot slotId item))
  | _ => .ok none

/-- Payload processing shared by both decoder branches: read the opcode
VarInt, dispatch on the current phase (src/mc/codec.rs:485-493). -/
def decodePayload (phase : PlayState) (payload : List Nat) : Except CodecError (Option Packet) :=
  match getVarInt payload with
  | none => .error .panicked
  | some (packetId, body) =>
    match phase with
    | .handshake => decodeHandshakePacket packetId body
    | .status => decodeStatusPacket packetId body
    | .login => decodeLoginPacket packetId body
    | .play => decodePlayPacket packetId body

/-- `PACKET_SIZE_LIMIT`. -/
def packetSizeLimit : Nat :=
  2 * 1024 * 1024

/-- The `DecoderState::Body` branch of `decode` (src/mc/codec.rs:471-494):
wait for `len` bytes, split off the payload, reset to `Header`; with
compression enabled read the uncompressed-size VarInt and, when it is
positive, replace the payload by `decompress` of the remainder; then hand the
payload to the opcode dispatch.  `decompress` stands for the external
`zlib::decompress` (flate2). -/
def decodeBody (decompress : List Nat → List Nat) (c : CodecState) (len : Nat)
    (src : List Nat) : Except CodecError (Option Packet × CodecState × List Nat) :=
  if src.length < len then .ok (none, { c with decoderState := .body len }, src)
  else
    let payload := src.take len
    let rest := src.drop len
    let c2 := { c with decoderState := .header }
    if 0 < c.compressionThreshold then
      match getVarInt payload with
      | none => .error .panicked
      | some (sizeUncompressed, payload2) =>
        let payload3 := if 0 < sizeUncompressed then decompress payload2 else payload2
        (decodePayload c.playState payload3).map (fun r => (r, c2, rest))
    else
      (decodePayload c.playState payload).map (fun r => (r, c2, rest))

/-- `Decoder::decode for MinecraftCodec` (src/mc/codec.rs:452-496).  In the
`Header` state: yield no packet until a complete length VarInt is buffered;
consume it; fail on frames above 2 MiB; then fall through to the `Body`
processing exactly as the source does via its recursive call.  Returns the
decoded packet (or `none`), the updated codec state and the remaining
buffer. -/
def decode (decompress : List Nat → List Nat) (c : CodecState) (src : List Nat) :
    Except CodecError (Option Packet × CodecState × List Nat) :=
  match c.decoderState with
  | .header =>
    if hasCompleteVarInt src then
      match getVarInt src with
      | none => .error .panicked
      | some (packetLen, src2) =>
        if packetSizeLimit < packetLen then .error .packetTooLarge
        else decodeBody decompress c packetLen src2
    else .ok (none, c, src)
  | .body len => decodeBody decompress c len src

/-! ## Encoder (src/mc/codec.rs, `encode_packet` and
`impl Encoder<Packet> for MinecraftCodec`) -/

/-- Per-chunk metadata written by the `S26MapChunkBulk` encoder: `i32 x`,
`i32 z`, `u16` section bitmask (bit `i` set iff section `i` is present). -/
def chunkBitmask (c : Chunk) : Nat :=
  (List.range c.sections.length).foldl
    (fun m i => if (c.sections.getD i none).isSome then m + 2 ^ i else m) 0

/-- Number of present sections. -/
def chunkNumSections (c : Chunk) : Nat :=
  (c.sections.filter Option.isSome).length

/-- Metadata region of one chunk in `S26MapChunkBulk`. -/
def chunkMeta (c : Chunk) : List Nat :=
  putI32 c.x ++ putI32 c.z ++ putU16 (chunkBitmask c)

/-- Data region of one chunk in `S26MapChunkBulk`
(src/mc/codec.rs:293-318): for each present section in ascending order its
4096 block states as little-endian `u16`; then `4096 * num_sections / 8`
writes of `put_u64(0xffffffffffffffff)` (8 bytes of `0xff` each) as dummy
lighting; then the 256 biome bytes. -/
def chunkDataBytes (c : Chunk) : List Nat :=
  ((List.range c.sections.length).flatMap
    (fun i => match c.sections.getD i none with
      | some sec => sec.data.flatMap (fun bs => [bs % 256, bs / 256 % 256])
      | none => []))
  ++ List.replicate (4096 * chunkNumSections c / 8 * 8) 255
  ++ c.biomes

/-- Payload of one entity-metadata entry: the type/index byte
`(type_id << 5) | (index & 0x1f)` (disjoint bit ranges, written as `+`)
followed by the typed payload (src/mc/codec.rs:347-380). -/
def encodeMetaEntry (e : EntityMetaEntry) : List Nat :=
  putU8 (e.data.typeId * 32 + e.index % 32) ++
    match e.data with
    | .byte v => putU8 v
    | .short v => putI16 v
    | .int v => putI32 v
    | .float bits => putF32bits bits
    | .str s => putString s
    | .slot itm => putI16 itm.id ++ putU8 itm.count ++ putU16 itm.damage ++ putU8 0
    | .vec3i x y z => putI32 x ++ putI32 y ++ putI32 z
    | .vec3f x y z => putF32bits x ++ putF32bits y ++ putF32bits z

/-- Action-specific tail of `S38PlayerListItem` (src/mc/codec.rs:389-418). -/
def encodeListItemAction (a : PlayerListItemAction) : List Nat :=
  match a with
  | .addPlayer name gameMode ping displayName =>
    putString name ++ putVarInt 0 ++ putVarInt gameMode.toNat ++ putVarInt ping
      ++ putBool displayName.isSome
      ++ (match displayName with
          | some d => putString d
          | none => [])
  | .updateGameMode gameMode => putVarInt gameMode.toNat
  | .updateLatency ping => putVarInt ping
  | .updateDisplayName displayName =>
    putBool displayName.isSome
      ++ (match displayName with
          | some d => putString d
          | none => [])
  | .removePlayer => []

/-- `MinecraftCodec::encode_packet` (src/mc/codec.rs:221-444): the body bytes
of a client-bound packet.  `none` models the two panics (`_ =>
panic!("Invalid packet direction!")` for server-bound variants, and the empty
`S1CEntityMeta` entry list) and, for `S0ESpawnObject`, the fact that its body
performs `f32` arithmetic (`* 32.0` scaling and `put_angle`), which is
outside this integer embedding. -/
def encodeBody (p : Packet) : Option (List Nat) :=
  match p with
  | .s00StatusResponse status => some (putString status)
  | .s01StatusPong timestamp => some (putI64 timestamp)
  | .s02LoginSuccess uuid username => some (putString uuid ++ putString username)
  | .s03LoginCompression threshold => some (putVarInt threshold)
  | .s00KeepAlive timestamp => some (putVarInt timestamp)
  | .s01JoinGame entityId gameMode dimension difficulty playerListSize worldType rdi =>
    some (putI32 entityId ++ putU8 gameMode.toNat ++ putU8 dimension ++ putU8 difficulty
      ++ putU8 playerListSize ++ putString worldType ++ putBool rdi)
  | .s02ChatMessage jsonData position => some (putString jsonData ++ putU8 position)
  | .s08SetPlayerPosition x y z yaw pitch flags =>
    some (putF64bits x ++ putF64bits y ++ putF64bits z ++ putF32bits yaw ++ putF32bits pitch
      ++ putU8 flags)
  | .s21ChunkData x z => some (putI32 x ++ putI32 z ++ putBool true ++ putU16 0 ++ putVarInt 0)
  | .s23BlockChange location blockState =>
    some (putU64 location.toU64 ++ putVarInt (blockState : Int))
  | .s26MapChunkBulk skylight chunks =>
    some (putBool skylight ++ putVarInt (i32cast chunks.length)
      ++ chunks.flatMap chunkMeta ++ chunks.flatMap chunkDataBytes)
  | .s0eSpawnObject .. => none
  | .s1cEntityMeta entityId entries =>
    if entries.isEmpty then none
    else some (putVarInt entityId ++ entries.flatMap encodeMetaEntry ++ putU8 0x7f)
  | .s2bChangeGameState reason value => some (putU8 reason.toNat ++ putF32bits value)
  | .s38PlayerListItem uuid action =>
    some (putVarInt action.idNum ++ putVarInt 1 ++ putU128 uuid ++ encodeListItemAction action)
  | .s39PlayerAbilities flags flyingSpeed walkingSpeed =>
    some (putU8 flags.toByte ++ putF32bits flyingSpeed ++ putF32bits walkingSpeed)
  | _ => none

/-- The framing part of `Encoder::encode` (src/mc/codec.rs:502-537), applied
to an already-assembled packet buffer (opcode VarInt followed by body bytes).
`compress` stands for the external `zlib::compress` (flate2).  `none` is the
oversize-packet `io::Error`.  Lengths are cast `as i32` before being written
(`i32cast`). -/
def encodeFrame (compress : List Nat → List Nat) (threshold : Nat)
    (packetBuf : List Nat) : Option (List Nat) :=
  if packetSizeLimit < packetBuf.length then none
  else if 0 < threshold then
    if threshold < packetBuf.length then
      let compressed := compress packetBuf
      let dataLen : Int := i32cast packetBuf.length
      let packetLen : Int := i32cast (calcVarIntSize dataLen + compressed.length)
      some (putVarInt packetLen ++ putVarInt dataLen ++ compressed)
    else
      some (putVarInt (i32cast packetBuf.length + 1) ++ putVarInt 0 ++ packetBuf)
  else
    some (putVarInt (i32cast packetBuf.length) ++ packetBuf)

/-- `Encoder::encode for MinecraftCodec` (src/mc/codec.rs:499-538): build the
packet buffer `put_var_int(id)` ++ body, then frame it according to the
compression threshold. -/
def encode (compress : List Nat → List Nat) (threshold : Nat) (p : Packet) :
    Option (List Nat) :=
  (encodeBody p).bind (fun body => encodeFrame compress threshold (putVarInt p.idNum ++ body))

/-! ## Session handler model (src/client.rs, src/model.rs, src/command.rs,
src/config.rs)

The handler functions below are pure: instead of writing to the socket,
mutating the codec or posting to the broker, they return a list of
`Effect`s in emission order next to the updated handler state.  `Option` is
again `none` = panic. -/

/-- Decimal digit bytes of a natural number (Rust `{}` formatting of an
integer). -/
def natDec (n : Nat) : List Nat :=
  if n < 10 then [48 + n] else natDec (n / 10) ++ [48 + n % 10]
termination_by n
decreasing_by exact Nat.div_lt_self (by omega) (by omega)

/-- UTF-8 bytes of `"help"`. -/
def strHelp : List Nat := [104, 101, 108, 112]

/-- UTF-8 bytes of `"gm"`. -/
def strGm : List Nat := [103, 109]

/-- UTF-8 bytes of `"flyspeed"`. -/
def strFly : List Nat := [102, 108, 121, 115, 112, 101, 101, 100]

/-- UTF-8 bytes of `"walkspeed"`. -/
def strWalk : List Nat := [119, 97, 108, 107, 115, 112, 101, 101, 100]

/-- UTF-8 bytes of the reply head `"§cError: "` (`format!("§cError: {}", s)`
in `handle_command`, src/client.rs:350-362). -/
def errPre : List Nat := [194, 167, 99, 69, 114, 114, 111, 114, 58, 32]

/-- `format!("Missing argument {}", arg_no)` (src/command.rs:20). -/
def msgMissingArg (argNo : Nat) : List Nat :=
  [77, 105, 115, 115, 105, 110, 103, 32, 97, 114, 103, 117, 109, 101, 110, 116, 32] ++ natDec argNo

/-- `format!("Argument {} is not valid", arg_no)` (src/command.rs:25). -/
def msgArgNotValid (argNo : Nat) : List Nat :=
  [65, 114, 103, 117, 109, 101, 110, 116, 32] ++ natDec argNo
    ++ [32, 105, 115, 32, 110, 111, 116, 32, 118, 97, 108, 105, 100]

/-- `format!("{}: Unknown command.", name)` (src/client.rs:407). -/
def msgUnknownCmd (name : List Nat) : List Nat :=
  name ++ [58, 32, 85, 110, 107, 110, 111, 119, 110, 32, 99, 111, 109, 109, 97, 110, 100, 46]

/-- Rust `Debug` name of a `GameMode` (used by
`format!("Game mode changed to {:?}", ..)`). -/
def GameMode.debugName : GameMode → List Nat
  | .survival => [83, 117, 114, 118, 105, 118, 97, 108]
  | .creative => [67, 114, 101, 97, 116, 105, 118, 101]
  | .adventure => [65, 100, 118, 101, 110, 116, 117, 114, 101]
  | .spectator => [83, 112, 101, 99, 116, 97, 116, 111, 114]

/-- `format!("Game mode changed to {:?}", game_mode)` (src/client.rs:382-385). -/
def msgGmChanged (gm : GameMode) : List Nat :=
  [71, 97, 109, 101, 32, 109, 111, 100, 101, 32, 99, 104, 97, 110, 103, 101, 100, 32, 116,
    111, 32] ++ gm.debugName

/-- `format!("Flying speed changed to {}", ..)`; the float `Display`
rendering is the caller-supplied `fmt32`. -/
def msgFlyChanged (txt : List Nat) : List Nat :=
  [70, 108, 121, 105, 110, 103, 32, 115, 112, 101, 101, 100, 32, 99, 104, 97, 110, 103, 101,
    100, 32, 116, 111, 32] ++ txt

/-- `format!("Walking speed changed to {}", ..)`. -/
def msgWalkChanged (txt : List Nat) : List Nat :=
  [87, 97, 108, 107, 105, 110, 103, 32, 115, 112, 101, 101, 100, 32, 99, 104, 97, 110, 103,
    101, 100, 32, 116, 111, 32] ++ txt

/-- The trimmed `/help` reply text (the `indoc!` literal of
src/client.rs:368-374 after `.trim()`). -/
def helpMsg : List Nat :=
  [61, 61, 32, 194, 167, 97, 72, 101, 108, 112, 194, 167, 114, 32, 61, 61, 10, 194, 167, 57,
    32, 47, 104, 101, 108, 112, 194, 167, 114, 58, 32, 83, 104, 111, 119, 32, 99, 111, 109,
    109, 97, 110, 100, 32, 111, 118, 101, 114, 118, 105, 101, 119, 10, 194, 167, 57, 32, 47,
    103, 109, 32, 194, 167, 55, 60, 109, 111, 100, 101, 62, 194, 167, 114, 58, 32, 67, 104,
    97, 110, 103, 101, 32, 103, 97, 109, 101, 109, 111, 100, 101, 10, 194, 167, 57, 32, 47,
    102, 108, 121, 115, 112, 101, 101, 100, 32, 194, 167, 55, 60, 115, 112, 101, 101, 100,
    62, 194, 167, 114, 58, 32, 83, 101, 116, 32, 102, 108, 121, 105, 110, 103, 32, 115, 112,
    101, 101, 100, 32, 109, 117, 108, 116, 105, 112, 108, 105, 101, 114, 10, 194, 167, 57,
    32, 47, 119, 97, 108, 107, 115, 112, 101, 101, 100, 32, 194, 167, 55, 60, 115, 112, 101,
    101, 100, 62, 194, 167, 114, 58, 32, 83, 101, 116, 32, 119, 97, 108, 107, 105, 110, 103,
    32, 115, 112, 101, 101, 100, 32, 109, 117, 108, 116, 105, 112, 108, 105, 101, 114]

/-- UTF-8 bytes of `" joined the game"`. -/
def joinedPost : List Nat := [32, 106, 111, 105, 110, 101, 100, 32, 116, 104, 101, 32, 103, 97, 109, 101]

/-- `format!("§e{} joined the game", name)`. -/
def joinedMsg (name : List Nat) : List Nat :=
  [194, 167, 101] ++ name ++ joinedPost

/-- `format!("§b{}§r: {}", name, msg)` (the chat broadcast format,
src/client.rs:227). -/
def chatFmt (name msg : List Nat) : List Nat :=
  [194, 167, 98] ++ name ++ [194, 167, 114, 58, 32] ++ msg

/-- Modelled from the spec: the `chat_packet!` macro used by src/client.rs is
not present under src/ (only its uses are).  Per the spec (§4.7) a chat
packet's JSON body is the object `{"text": message}`; `jsonText` renders it
without escaping (no message below needs any). -/
def jsonText (msg : List Nat) : List Nat :=
  [123, 34, 116, 101, 120, 116, 34, 58, 34] ++ msg ++ [34, 125]

/-- Modelled from the spec: `chat_packet!(position, message)` builds
`S02ChatMessage` with the JSON body of `message` and that position. -/
def chatPacket (position : Nat) (msg : List Nat) : Packet :=
  .s02ChatMessage (jsonText msg) position

/-- Lowercase hex digit byte. -/
def hexDigit (n : Nat) : Nat :=
  if n < 10 then 48 + n else 87 + n

/-- UTF-8 bytes of `Uuid::to_string()`: 32 lowercase hex digits of the
`u128`, most significant nibble first, hyphenated 8-4-4-4-12. -/
def uuidString (u : Nat) : List Nat :=
  let ds := (List.range 32).map (fun i => hexDigit (u / 16 ^ (31 - i) % 16))
  ds.take 8 ++ [45] ++ ((ds.drop 8).take 4) ++ [45] ++ ((ds.drop 12).take 4) ++ [45]
    ++ ((ds.drop 16).take 4) ++ [45] ++ ds.drop 20

/-- IEEE-754 `f64` bit pattern of the literal `69.0` (the spawn height sent
by the login handler, src/client.rs:190). -/
def f64Bits69 : Nat := 0x4051400000000000

/-- IEEE-754 `f64` bit pattern of the literal `64.0` (the spawn height the
spec's login scenario names). -/
def f64Bits64 : Nat := 0x4050000000000000

/-- IEEE-754 `f32` bit pattern of the literal `0.05` (`Player::new`
fly_speed). -/
def f32Bits005 : Nat := 0x3D4CCCCD

/-- IEEE-754 `f32` bit pattern of the literal `0.1` (`Player::new`
walk_speed). -/
def f32Bits01 : Nat := 0x3DCCCCCD

/-- `Player` (src/model.rs:103-130).  Position and rotation carry bit
patterns; `uuid` is the `u128` value. -/
structure Player where
  eid : Int
  uuid : Nat
  username : List Nat
  posX : Nat
  posY : Nat
  posZ : Nat
  rotYaw : Nat
  rotPitch : Nat
  gameMode : GameMode
  flySpeed : Nat
  walkSpeed : Nat
  inventory : List ItemStack
  selectedSlot : Int
deriving DecidableEq

/-- `Player::new` (src/model.rs:117-130); the random UUID is a parameter. -/
def Player.new (eid : Int) (uuid : Nat) (gameMode : GameMode) : Player where
  eid := eid
  uuid := uuid
  username := []
  posX := 0
  posY := 0
  posZ := 0
  rotYaw := 0
  rotPitch := 0
  gameMode := gameMode
  flySpeed := f32Bits005
  walkSpeed := f32Bits01
  inventory := List.replicate 45 ItemStack.default
  selectedSlot := 0

/-- `Player::item_stack_at` (src/model.rs:136-138):
`self.inventory[id as usize]` with no bounds check; the `i16` index is cast
`as usize` (sign extension), and `none` models the out-of-bounds panic. -/
def itemStackAt (p : Player) (id : Int) : Option ItemStack :=
  p.inventory.get? (usizeCast id)

/-- `Player::item_stack_in_hotbar` (src/model.rs:140-142):
`item_stack_at(36 + id)` with wrapping `i16` addition. -/
def itemStackInHotbar (p : Player) (id : Int) : Option ItemStack :=
  itemStackAt p (i16wrap (36 + id))

/-- The `ServerConfig` fields the handler reads (src/config.rs). -/
structure ServerConfig where
  motd : List Nat
  slots : Int
  gameMode : GameMode
  difficulty : Nat
  netCompression : Nat
  viewDist : Int
deriving DecidableEq

/-- One observable action of the session handler, in emission order:
packets written to this client's socket, packets broadcast through the
broker, codec mutations, the player-counter update, and the calls into the
generation scheduler. -/
inductive Effect
  | send (p : Packet)
  | broadcast (p : Packet)
  | setThreshold (n : Nat)
  | setPhase (s : PlayState)
  | incPlayers (n : Int)
  | requestRegion (x z r : Int)
  | awaitRegion (x z r : Int)
deriving DecidableEq

/-- The per-session mutable state the embedded handler arms touch. -/
structure HandlerState where
  player : Player
  knownChunks : List ChunkPos
  currentChunkPos : ChunkPos
deriving DecidableEq

/-- The inclusive range `a..=b` as a list. -/
def rangeIncl (a b : Int) : List Int :=
  (List.range (b + 1 - a).toNat).map (fun i => a + i)

/-- Iteration order of the double loop in `send_chunks`
(src/client.rs:488-497): `z` outer, `x` inner, each over `-r..=r`; the
visited position is `(center_x + x, center_z + z)`. -/
def sendChunksPositions (centerX centerZ r : Int) : List ChunkPos :=
  (rangeIncl (-r) r).flatMap
    (fun z => (rangeIncl (-r) r).map (fun x => ⟨centerX + x, centerZ + z⟩))

/-- The collection loop of `send_chunks`: keep a position's chunk iff it is
present in the world and not yet known; mark kept positions known
(`DashSet::insert`). -/
def collectChunks (w : World) : List ChunkPos → List ChunkPos → List Chunk × List ChunkPos
  | [], known => ([], known)
  | pos :: rest, known =>
    match World.getChunk w pos with
    | some chunk =>
      if pos ∈ known then collectChunks w rest known
      else
        let res := collectChunks w rest (known ++ [pos])
        (chunk :: res.1, res.2)
    | none => collectChunks w rest known

/-- One step bound of `slice::chunks(10)`; the fuel argument only bounds the
recursion depth (each step consumes ten elements, so `l.length` steps always
suffice). -/
def groupsOf10Steps : Nat → List Chunk → List (List Chunk)
  | 0, _ => []
  | fuel + 1, l => if l.isEmpty then [] else l.take 10 :: groupsOf10Steps fuel (l.drop 10)

/-- `slice::chunks(10)`: split into groups of at most ten, in order. -/
def groupsOf10 (l : List Chunk) : List (List Chunk) :=
  groupsOf10Steps l.length l

/-- `ClientHandler::send_chunks` (src/client.rs:484-518): collect the
unknown present chunks of the view square, then emit one
`S26MapChunkBulk { skylight: true, .. }` per group of at most ten (each
chunk cloned out of the store). -/
def sendChunks (w : World) (st : HandlerState) (centerX centerZ r : Int) :
    List Effect × HandlerState :=
  let res := collectChunks w (sendChunksPositions centerX centerZ r) st.knownChunks
  ((groupsOf10 res.1).map (fun g => Effect.send (.s26MapChunkBulk true g)),
    { st with knownChunks := res.2 })

/-- Window test of `update_chunks`: a known chunk outside
`[center ± r]²` is unloaded. -/
def outsideWindow (center : ChunkPos) (r : Int) (k : ChunkPos) : Bool :=
  k.x < center.x - r ∨ k.z < center.z - r ∨ k.x > center.x + r ∨ k.z > center.z + r

/-- `ClientHandler::update_chunks` (src/client.rs:440-469): on a center
change, request and await the region, send the new chunks, then emit one
`S21ChunkData` unload frame per known chunk outside the window and drop it
from the known set. -/
def updateChunks (w : World) (cfg : ServerConfig) (st : HandlerState) (center : ChunkPos) :
    List Effect × HandlerState :=
  if st.currentChunkPos = center then ([], st)
  else
    let r := cfg.viewDist
    let st1 := { st with currentChunkPos := center }
    let res := sendChunks w st1 center.x center.z r
    let removed := res.2.knownChunks.filter (outsideWindow center r)
    ([.requestRegion center.x center.z r, .awaitRegion center.x center.z r] ++ res.1
      ++ removed.map (fun p => Effect.send (.s21ChunkData p.x p.z)),
      { res.2 with knownChunks := res.2.knownChunks.filter (fun k => ¬ outsideWindow center r k) })

/-- UTF-8 bytes of `"default"` (the `world_type` of `S01JoinGame`). -/
def worldTypeDefault : List Nat := [100, 101, 102, 97, 117, 108, 116]

/-- The `C00LoginStart` arm of `ClientHandler::handle_packet`
(src/client.rs:150-219): record the username, bump the player counter, send
`S03LoginCompression` and set the codec threshold, send `S02LoginSuccess`
and switch the codec to Play, send `S01JoinGame`, ship the chunk window
around (0,0), send `S08SetPlayerPosition(0.0, 69.0, 0.0, 0.0, 0.0, 0)`, then
broadcast the join chat line and the `S38PlayerListItem` AddPlayer entry. -/
def handleLoginStart (cfg : ServerConfig) (w : World) (st : HandlerState)
    (username : List Nat) : List Effect × HandlerState :=
  let p := { st.player with username := username }
  let st1 := { st with player := p }
  let res := sendChunks w st1 0 0 cfg.viewDist
  ( Effect.incPlayers 1
    :: .send (.s03LoginCompression (i32cast cfg.netCompression))
    :: .setThreshold cfg.netCompression
    :: .send (.s02LoginSuccess (uuidString p.uuid) p.username)
    :: .setPhase .play
    :: .send (.s01JoinGame p.eid p.gameMode 0 cfg.difficulty 4 worldTypeDefault false)
    :: res.1
    ++ [ .send (.s08SetPlayerPosition 0 f64Bits69 0 0 0 0),
         .broadcast (chatPacket 1 (joinedMsg p.username)),
         .broadcast (.s38PlayerListItem p.uuid (.addPlayer p.username p.gameMode 0 none)) ],
    res.2)

/-- `str::split(" ")` on UTF-8 bytes (single-byte separator; empty pieces
are kept, and the result is never empty). -/
def splitSpaces : List Nat → List (List Nat)
  | [] => [[]]
  | b :: rest =>
    if b = 32 then [] :: splitSpaces rest
    else
      match splitSpaces rest with
      | t :: ts => (b :: t) :: ts
      | [] => [[b]]

/-- `Command::parse` (src/command.rs:8-11): drop the leading `/`, split on
spaces. -/
def commandParse (line : List Nat) : List (List Nat) :=
  splitSpaces (line.drop 1)

/-- `Command::name`: the first token (`split` always yields one). -/
def commandName (parts : List (List Nat)) : List Nat :=
  parts.getD 0 []

/-- `<u8 as FromStr>::from_str`: optional leading `+`, then at least one
decimal digit, value at most 255 (overflow and any other character fail). -/
def parseU8 (s : List Nat) : Option Nat :=
  let digits := match s with
    | 43 :: rest => rest
    | _ => s
  if digits.isEmpty then none
  else if digits.all (fun c => 48 ≤ c ∧ c ≤ 57) then
    let v := digits.foldl (fun a c => a * 10 + (c - 48)) 0
    if v ≤ 255 then some v else none
  else none

/-- `Command::arg` (src/command.rs:17-27), untyped part: fetch token
`idx + 1` or report `Missing argument`. -/
def commandArgStr (parts : List (List Nat)) (idx : Nat) : Except (List Nat) (List Nat) :=
  let argNo := idx + 1
  if parts.length ≤ argNo then .error (msgMissingArg argNo)
  else .ok (parts.getD argNo [])

/-- `Command::arg::<u8>`: parse failure reports `Argument {n} is not
valid`. -/
def commandArgU8 (parts : List (List Nat)) (idx : Nat) : Except (List Nat) Nat :=
  match commandArgStr parts idx with
  | .error e => .error e
  | .ok s =>
    match parseU8 s with
    | some v => .ok v
    | none => .error (msgArgNotValid (idx + 1))

/-- `Command::arg::<f32>`: the float grammar itself is the external
`<f32 as FromStr>` (parameter `parse32`, returning the parsed bit
pattern). -/
def commandArgF32 (parse32 : List Nat → Option Nat) (parts : List (List Nat)) (idx : Nat) :
    Except (List Nat) Nat :=
  match commandArgStr parts idx with
  | .error e => .error e
  | .ok s =>
    match parse32 s with
    | some v => .ok v
    | none => .error (msgArgNotValid (idx + 1))

/-- Effects of `ClientHandler::change_game_mode` (src/client.rs:423-438):
set the mode, send `S2BChangeGameState(ChangeGameMode, mode as f32)`, send
the abilities for the new mode, broadcast the player-list update. -/
def changeGameModeEffects (pl : Player) (gm : GameMode) : List Effect :=
  [ .send (.s2bChangeGameState .changeGameMode gm.f32Bits),
    .send (.s39PlayerAbilities (AbilityFlags.fromGameMode gm) pl.flySpeed pl.walkSpeed),
    .broadcast (.s38PlayerListItem pl.uuid (.updateGameMode gm)) ]

/-- `ClientHandler::send_abilities` (src/client.rs:475-482). -/
def sendAbilitiesEffect (pl : Player) : Effect :=
  .send (.s39PlayerAbilities (AbilityFlags.fromGameMode pl.gameMode) pl.flySpeed pl.walkSpeed)

/-- `ClientHandler::exec_command` (src/client.rs:364-409).  Returns `none`
for the `GameMode::from` panic on a `/gm` argument outside `0..=3`;
otherwise the command's `Result<Option<String>, String>` next to the effects
it emitted and the updated player.  `parse32`/`fmt32` stand for the external
`f32` parsing and `Display` formatting. -/
def execCommand (parse32 : List Nat → Option Nat) (fmt32 : Nat → List Nat) (pl : Player)
    (line : List Nat) : Option (Except (List Nat) (Option (List Nat)) × List Effect × Player) :=
  let parts := commandParse line
  let name := commandName parts
  if name = strHelp then some (.ok (some helpMsg), [], pl)
  else if name = strGm then
    match commandArgU8 parts 0 with
    | .error e => some (.error e, [], pl)
    | .ok v =>
      match GameMode.fromU8 v with
      | none => none
      | some gm =>
        let pl2 := { pl with gameMode := gm }
        some (.ok (some (msgGmChanged gm)), changeGameModeEffects pl2 gm, pl2)
  else if name = strFly then
    match commandArgF32 parse32 parts 0 with
    | .error e => some (.error e, [], pl)
    | .ok bits =>
      let pl2 := { pl with flySpeed := bits }
      some (.ok (some (msgFlyChanged (fmt32 bits))), [sendAbilitiesEffect pl2], pl2)
  else if name = strWalk then
    match commandArgF32 parse32 parts 0 with
    | .error e => some (.error e, [], pl)
    | .ok bits =>
      let pl2 := { pl with walkSpeed := bits }
      some (.ok (some (msgWalkChanged (fmt32 bits))), [sendAbilitiesEffect pl2], pl2)
  else some (.error (msgUnknownCmd name), [], pl)

/-- `ClientHandler::handle_command` (src/client.rs:350-362): run the
command; an `Err(s)` answer becomes a position-1 chat reply
`"§cError: " ++ s`, an `Ok(Some(m))` answer a position-1 chat reply `m`. -/
def handleCommand (parse32 : List Nat → Option Nat) (fmt32 : Nat → List Nat)
    (st : HandlerState) (line : List Nat) : Option (List Effect × HandlerState) :=
  match execCommand parse32 fmt32 st.player line with
  | none => none
  | some (res, effs, pl2) =>
    let st2 := { st with player := pl2 }
    match res with
    | .error e => some (effs ++ [.send (chatPacket 1 (errPre ++ e))], st2)
    | .ok (some m) => some (effs ++ [.send (chatPacket 1 m)], st2)
    | .ok none => some (effs, st2)

/-- The `C01ChatMessage` arm of `handle_packet` (src/client.rs:220-232):
messages starting with `/` go to command dispatch; everything else is
broadcast as `"§b{name}§r: {msg}"` at position 0. -/
def handleChatMessage (parse32 : List Nat → Option Nat) (fmt32 : Nat → List Nat)
    (st : HandlerState) (msg : List Nat) : Option (List Effect × HandlerState) :=
  if msg.head? = some 47 then handleCommand parse32 fmt32 st msg
  else some ([.broadcast (chatPacket 0 (chatFmt st.player.username msg))], st)

/-- The `C10SetCreativeSlot` arm of `handle_packet` (src/client.rs:337-341):
`*self.player.item_stack_at(slot_id) = item` — unchecked indexing, then the
write. -/
def handleSetCreativeSlot (st : HandlerState) (slotId : Int) (item : ItemStack) :
    Option HandlerState :=
  match itemStackAt st.player slotId with
  | none => none
  | some _ =>
    some { st with player :=
      { st.player with inventory := st.player.inventory.set (usizeCast slotId) item } }

/-- The `block_id!` macro: `state >> 4`. -/
def blockIdOf (state : Nat) : Nat :=
  state / 16

/-- The `block_state!` macro: `(id as u16) << 4 | (damage as u16 & 0x0f)`
(u16 wrap-around shift; the or-ed ranges are disjoint). -/
def blockStateOf (id : Int) (damage : Nat) : Nat :=
  (id % 2 ^ 16).toNat * 16 % 2 ^ 16 + damage % 16

/-- Effects of `ClientHandler::change_block` (src/client.rs:411-421): write
the block, broadcast `S23BlockChange`. -/
def changeBlock (w : World) (location : BlockPos) (blockState : Nat) :
    Option (List Effect × World) :=
  (World.setBlock w location.x location.y location.z blockState).map
    (fun w2 => ([Effect.broadcast (.s23BlockChange location blockState)], w2))

/-- The `C08PlayerBlockPlacement` arm of `handle_packet`
(src/client.rs:310-332): ignore `Special` faces; replace tall grass
(id 31) in place, otherwise offset by the face; when the held hotbar stack
is present and a block id, place `block_state!(id, damage)`. -/
def handleBlockPlacement (w : World) (st : HandlerState) (location : BlockPos)
    (face : BlockFace) : Option (List Effect × World) :=
  if face ≠ .special then do
    let blockState ← World.getBlock w location.x location.y location.z
    let newLoc ← if blockIdOf blockState = 31 then some location else location.offsetFace face
    let held ← itemStackInHotbar st.player st.player.selectedSlot
    if held.isPresent ∧ held.isBlock then
      changeBlock w newLoc (blockStateOf held.id held.damage)
    else
      pure ([], w)
  else some ([], w)

/-- The world-map invariant (spec §8): the coordinate stored in a chunk
matches its key. -/
def worldWF (w : World) : Prop :=
  ∀ e ∈ w, e.2.x = e.1.x ∧ e.2.z = e.1.z

instance (w : World) : Decidable (worldWF w) := by
  unfold worldWF; infer_instance

/-- Decidable equality for `Except`, so that codec results can be checked by
evaluation. -/
instance {ε α : Type} [DecidableEq ε] [DecidableEq α] : DecidableEq (Except ε α) := fun a b =>
  match a, b with
  | .error e1, .error e2 =>
    if h : e1 = e2 then .isTrue (by rw [h]) else .isFalse (by intro hc; cases hc; exact h rfl)
  | .ok x, .ok y =>
    if h : x = y then .isTrue (by rw [h]) else .isFalse (by intro hc; cases hc; exact h rfl)
  | .error _, .ok _ => .isFalse (by intro hc; cases hc)
  | .ok _, .error _ => .isFalse (by intro hc; cases hc)

/-! ## Helper lemmas: VarInt primitives -/

theorem varIntBytes_small {v : Nat} (h : v < 128) : varIntBytes v = [v] := by
  rw [varIntBytes]
  simp [h]

theorem varIntBytes_large {v : Nat} (h : 128 ≤ v) :
    varIntBytes v = (v % 128 + 128) :: varIntBytes (v / 128) := by
  rw [varIntBytes]
  simp [Nat.not_lt.mpr h]

theorem putVarIntLoop_nonneg : ∀ (fuel : Nat) (v : Int) (acc : List Nat),
    0 ≤ v → v < 128 ^ (fuel + 1) →
    putVarIntLoop (fuel + 1) v acc = some (acc ++ varIntBytes v.toNat) := by
  intro fuel
  induction fuel with
  | zero =>
    intro v acc h0 h1
    rw [putVarIntLoop]
    have h128 : v < 128 := by norm_num at h1; omega
    have hz : v / 128 = 0 := by omega
    have ht : (v % 128).toNat = v.toNat := by omega
    simp [hz, ht, varIntBytes_small (by omega : v.toNat < 128)]
  | succ n ih =>
    intro v acc h0 h1
    rw [putVarIntLoop]
    by_cases hv : v < 128
    · have hz : v / 128 = 0 := by omega
      have ht : (v % 128).toNat = v.toNat := by omega
      simp [hz, ht, varIntBytes_small (by omega : v.toNat < 128)]
    · have hz : ¬ (v / 128 = 0) := by omega
      simp only [hz, if_false]
      have hpow : (128 : Int) ^ (n + 1 + 1) = 128 ^ (n + 1) * 128 := by ring
      have hlt : v / 128 < 128 ^ (n + 1) := by
        rw [hpow] at h1; omega
      rw [ih (v / 128) (acc ++ [(v % 128).toNat + 128]) (by omega) hlt]
      rw [varIntBytes_large (by omega : 128 ≤ v.toNat)]
      have e1 : (v / 128).toNat = v.toNat / 128 := by omega
      have e2 : (v % 128).toNat = v.toNat % 128 := by omega
      simp [e1, e2]

theorem putVarInt_eq (v : Int) (h0 : 0 ≤ v) (h1 : v < 2 ^ 31) :
    putVarInt v = varIntBytes v.toNat := by
  have h5 : v < 128 ^ (4 + 1) := by norm_num; omega
  unfold putVarInt
  rw [show (5 : Nat) = 4 + 1 from rfl, putVarIntLoop_nonneg 4 v [] h0 h5]
  simp

theorem putVarIntLoop_neg : ∀ (fuel : Nat) (v : Int) (acc : List Nat), v < 0 →
    putVarIntLoop fuel v acc = none := by
  intro fuel
  induction fuel with
  | zero => intro v acc _; rfl
  | succ n ih =>
    intro v acc hv
    rw [putVarIntLoop]
    have hz : ¬ (v / 128 = 0) := by omega
    simp only [hz, if_false]
    exact ih (v / 128) _ (by omega)

theorem calcVarIntSizeLoop_nonneg : ∀ (fuel : Nat) (v : Int) (size : Nat),
    0 ≤ v → v < 128 ^ (fuel + 1) →
    calcVarIntSizeLoop (fuel + 1) v size = some (size + (varIntBytes v.toNat).length) := by
  intro fuel
  induction fuel with
  | zero =>
    intro v size h0 h1
    rw [calcVarIntSizeLoop]
    have h128 : v < 128 := by norm_num at h1; omega
    have hz : v / 128 = 0 := by omega
    simp [hz, varIntBytes_small (by omega : v.toNat < 128)]
  | succ n ih =>
    intro v size h0 h1
    rw [calcVarIntSizeLoop]
    by_cases hv : v < 128
    · have hz : v / 128 = 0 := by omega
      simp [hz, varIntBytes_small (by omega : v.toNat < 128)]
    · have hz : ¬ (v / 128 = 0) := by omega
      simp only [hz, if_false]
      have hpow : (128 : Int) ^ (n + 1 + 1) = 128 ^ (n + 1) * 128 := by ring
      have hlt : v / 128 < 128 ^ (n + 1) := by rw [hpow] at h1; omega
      rw [ih (v / 128) (size + 1) (by omega) hlt]
      rw [varIntBytes_large (by omega : 128 ≤ v.toNat)]
      have e1 : (v / 128).toNat = v.toNat / 128 := by omega
      simp [e1]
      omega

theorem calcVarIntSize_eq (v : Int) (h0 : 0 ≤ v) (h1 : v < 2 ^ 31) :
    calcVarIntSize v = (varIntBytes v.toNat).length := by
  have h5 : v < 128 ^ (4 + 1) := by norm_num; omega
  unfold calcVarIntSize
  rw [show (5 : Nat) = 4 + 1 from rfl, calcVarIntSizeLoop_nonneg 4 v 0 h0 h5]
  simp

theorem varIntBytes_length : ∀ (n v : Nat), v < 128 ^ (n + 1) →
    (varIntBytes v).length ≤ n + 1 := by
  intro n
  induction n with
  | zero =>
    intro v h
    norm_num at h
    rw [varIntBytes_small h]
    simp
  | succ m ih =>
    intro v h
    by_cases hv : v < 128
    · rw [varIntBytes_small hv]; simp
    · rw [varIntBytes_large (by omega)]
      have hpow : (128 : Nat) ^ (m + 1 + 1) = 128 ^ (m + 1) * 128 := by ring
      have hlt : v / 128 < 128 ^ (m + 1) := by rw [hpow] at h; omega
      have := ih (v / 128) hlt
      simp
      omega

theorem varIntBytes_length_pos (v : Nat) : 1 ≤ (varIntBytes v).length := by
  rw [varIntBytes]
  split <;> simp

theorem getVarIntAux_round (v : Nat) : ∀ (i acc : Nat) (rest : List Nat),
    (varIntBytes v).length + i ≤ 4 →
    getVarIntAux i (varIntBytes v ++ rest) acc = some (acc + v * 2 ^ (7 * i), rest) := by
  induction v using Nat.strong_induction_on with
  | _ v ih =>
    intro i acc rest hlen
    by_cases hv : v < 128
    · rw [varIntBytes_small hv]
      rw [List.cons_append, getVarIntAux]
      have hm : v % 128 = v := by omega
      simp [hv, hm]
    · rw [varIntBytes_large (by omega)]
      rw [List.cons_append, getVarIntAux]
      have hb : ¬ (v % 128 + 128 < 128) := by omega
      have hpos : 1 ≤ (varIntBytes (v / 128)).length := varIntBytes_length_pos _
      have hlen4 : (varIntBytes (v / 128)).length + 1 + i ≤ 4 := by
        rw [varIntBytes_large (by omega)] at hlen
        simpa using hlen
      have hi : ¬ (i = 3) := by omega
      have hm : (v % 128 + 128) % 128 = v % 128 := by omega
      simp only [hb, if_false, hi, hm]
      rw [ih (v / 128) (by omega) (i + 1) (acc + v % 128 * 2 ^ (7 * i)) rest (by omega)]
      have harith : acc + v % 128 * 2 ^ (7 * i) + v / 128 * 2 ^ (7 * (i + 1))
          = acc + v * 2 ^ (7 * i) := by
        have hdm : v = v % 128 + 128 * (v / 128) := by omega
        conv_rhs => rw [hdm]
        have hp : 2 ^ (7 * (i + 1)) = 2 ^ (7 * i) * 128 := by
          rw [Nat.mul_succ, pow_add]
          norm_num
        rw [hp]
        ring
      rw [harith]

theorem getVarInt_round (v : Nat) (h : v < 2 ^ 28) (rest : List Nat) :
    getVarInt (varIntBytes v ++ rest) = some (v, rest) := by
  have hlen : (varIntBytes v).length ≤ 4 := by
    have := varIntBytes_length 3 v (by norm_num; omega)
    omega
  unfold getVarInt
  rw [getVarIntAux_round v 0 0 rest (by omega)]
  simp

theorem varIntBytes_any_take (v : Nat) : ∀ (n : Nat) (rest : List Nat),
    (varIntBytes v).length ≤ n →
    ((varIntBytes v ++ rest).take n).any (fun b => b < 128) = true := by
  induction v using Nat.strong_induction_on with
  | _ v ih =>
    intro n rest hlen
    by_cases hv : v < 128
    · rw [varIntBytes_small hv] at *
      simp at hlen
      obtain ⟨m, rfl⟩ : ∃ m, n = m + 1 := ⟨n - 1, by omega⟩
      simp [List.take_succ_cons, hv]
    · rw [varIntBytes_large (by omega)] at *
      simp at hlen
      obtain ⟨m, rfl⟩ : ∃ m, n = m + 1 := ⟨n - 1, by omega⟩
      rw [List.cons_append, List.take_succ_cons]
      simp only [List.any_cons]
      rw [ih (v / 128) (by omega) m rest (by omega)]
      simp

theorem hasCompleteVarInt_round (v : Nat) (h : v < 2 ^ 28) (rest : List Nat) :
    hasCompleteVarInt (varIntBytes v ++ rest) = true := by
  have hlen : (varIntBytes v).length ≤ 4 := by
    have := varIntBytes_length 3 v (by norm_num; omega)
    omega
  exact varIntBytes_any_take v 4 rest hlen

theorem i32cast_small (n : Nat) (h : n < 2 ^ 31) : i32cast n = (n : Int) := by
  unfold i32cast
  have hm : n % 2 ^ 32 = n := by omega
  simp only [hm]
  rw [if_neg (by omega)]

theorem putVarInt_natCast (n : Nat) (h : n < 2 ^ 31) : putVarInt (n : Int) = varIntBytes n := by
  rw [putVarInt_eq _ (by omega) (by omega)]
  simp

theorem putVarInt_length_le (n : Nat) (h : n < 2 ^ 28) : (putVarInt (n : Int)).length ≤ 4 := by
  rw [putVarInt_natCast n (by omega)]
  have := varIntBytes_length 3 n (by norm_num; omega)
  omega

theorem getVarInt_putVarInt (n : Nat) (h : n < 2 ^ 28) (rest : List Nat) :
    getVarInt (putVarInt (n : Int) ++ rest) = some (n, rest) := by
  rw [putVarInt_natCast n (by omega)]
  exact getVarInt_round n h rest

theorem hasCompleteVarInt_putVarInt (n : Nat) (h : n < 2 ^ 28) (rest : List Nat) :
    hasCompleteVarInt (putVarInt (n : Int) ++ rest) = true := by
  rw [putVarInt_natCast n (by omega)]
  exact hasCompleteVarInt_round n h rest

/-! ## Claim theorems -/

/-- C4: the claim states that `put_var_int(v)` terminates within five bytes
for every `i32` value `v`, including every negative `v`.  The code disagrees:
its loop shifts with `value >>= 7` on a *signed* `i32`, an arithmetic shift
under which every negative value is a fixed point of sign bits (`-1 >> 7 =
-1`), so on input `-1` the loop never reaches `value == 0` — under any fuel
bound it keeps appending `0xFF` continuation bytes — and the claim's
termination statement fails (code bug: the spec's LEB128 description is the
evident intent). -/
theorem claim_C4 : ∀ fuel : Nat, putVarIntLoop fuel (-1) [] = none :=
  fun fuel => putVarIntLoop_neg fuel (-1) [] (by norm_num)

/-- C5, counterexample: on the byte sequence `0x80 0x80 0x80 0x80 0x80` (a
VarInt whose 5th byte still carries the continuation bit) nothing is
rejected: `has_complete_var_int` inspects only the first four bytes and
reports the VarInt as incomplete, `Decoder::decode` therefore yields
`Ok(None)` ("need more bytes") with the buffer untouched — no error — and a
direct `get_var_int` call would silently return the truncated value 0 built
from the first four bytes, leaving the 5th byte unconsumed. -/
theorem claim_C5_cx :
    hasCompleteVarInt [128, 128, 128, 128, 128] = false
    ∧ getVarInt [128, 128, 128, 128, 128] = some (0, [128])
    ∧ decode id CodecState.new [128, 128, 128, 128, 128]
        = .ok (none, CodecState.new, [128, 128, 128, 128, 128]) := by
  decide

/-- C5, amended: a VarInt whose first four bytes all carry the continuation
bit (in particular one whose 5th byte does) is never decoded and never
produces an error: in the `Header` state the decoder reports "no packet yet"
and leaves its state and the buffer unchanged, forever. -/
theorem claim_C5 (decompress : List Nat → List Nat) (c : CodecState)
    (b0 b1 b2 b3 : Nat) (rest : List Nat) (hc : c.decoderState = .header)
    (h0 : 128 ≤ b0) (h1 : 128 ≤ b1) (h2 : 128 ≤ b2) (h3 : 128 ≤ b3) :
    hasCompleteVarInt (b0 :: b1 :: b2 :: b3 :: rest) = false
    ∧ decode decompress c (b0 :: b1 :: b2 :: b3 :: rest)
        = .ok (none, c, b0 :: b1 :: b2 :: b3 :: rest) := by
  have hfalse : hasCompleteVarInt (b0 :: b1 :: b2 :: b3 :: rest) = false := by
    unfold hasCompleteVarInt
    simp [List.take_succ_cons]
    omega
  refine ⟨hfalse, ?_⟩
  obtain ⟨th, ph, ds⟩ := c
  simp only at hc
  subst hc
  simp [decode, hfalse]

/-- C5, witness for the amended theorem at a concrete input. -/
theorem claim_C5_witness :
    hasCompleteVarInt [128, 129, 130, 131, 7] = false
    ∧ decode id ⟨0, .play, .header⟩ [128, 129, 130, 131, 7]
        = .ok (none, ⟨0, .play, .header⟩, [128, 129, 130, 131, 7]) :=
  claim_C5 id ⟨0, .play, .header⟩ 128 129 130 131 [7] rfl (by decide) (by decide)
    (by decide) (by decide)

/-- C6: the claim states that `World::set_block` with `y < 0` or `y ≥ 256`
silently ignores the write and cannot fail.  The code disagrees:
`Chunk::set_block` computes `section_idx = y >> 4` and indexes
`self.sections[section_idx as usize]` without any bounds check, so `y = 256`
indexes position 16 of a 16-element array and any negative `y` casts to an
astronomically large index — both panic before `Section`'s own silent
range guard (which this call path can never trigger, since it receives
`y & 0x0f`) is ever reached.  Code bug: the guard inside `Section::set_block`
and the spec sentence show silent ignoring was the intent. -/
theorem claim_C6 :
    World.setBlock [] 0 256 0 1 = none ∧ World.setBlock [] 0 (-1) 0 1 = none := by
  decide

/-- C7: packing a `BlockPos` into the 64-bit container and unpacking it
round-trips on the documented field ranges (x, z signed 26-bit; y signed
12-bit), with x in the high 26 bits, y in the middle 12, z in the low 26 and
per-field two's-complement sign extension. -/
theorem claim_C7 (p : BlockPos)
    (hx1 : -(2 ^ 25) ≤ p.x) (hx2 : p.x < 2 ^ 25)
    (hy1 : -(2 ^ 11) ≤ p.y) (hy2 : p.y < 2 ^ 11)
    (hz1 : -(2 ^ 25) ≤ p.z) (hz2 : p.z < 2 ^ 25) :
    BlockPos.fromU64 p.toU64 = p := by
  obtain ⟨x, y, z⟩ := p
  simp only at hx1 hx2 hy1 hy2 hz1 hz2
  simp only [BlockPos.toU64, BlockPos.fromU64, BlockPos.toSignedBits, i32cast,
    BlockPos.mk.injEq]
  norm_num
  refine ⟨?_, ?_, ?_⟩ <;> split_ifs <;> omega

/-- C7, witness: the all-negative corner round-trips. -/
theorem claim_C7_witness : BlockPos.fromU64 (BlockPos.toU64 ⟨-1, -1, -1⟩) = ⟨-1, -1, -1⟩ :=
  claim_C7 ⟨-1, -1, -1⟩ (by decide) (by decide) (by decide) (by decide) (by decide) (by decide)

/-- C1: for a packet buffer of length `L ≤ 2 MiB` the encoder appends
exactly `VarInt(L) ++ buffer` when the compression threshold is 0;
`VarInt(L + 1) ++ VarInt(0) ++ buffer` when the threshold is positive and
`L ≤ threshold`; and `VarInt(len(VarInt(L)) + len(compressed)) ++ VarInt(L)
++ compressed` when the threshold is positive and `L > threshold` (the
hypothesis on the compressed length only rules out a 2-GiB zlib output from
a 2-MiB input, where the `as i32` length cast would wrap). -/
theorem claim_C1 (compress : List Nat → List Nat) (threshold : Nat) (packetBuf : List Nat)
    (hlen : packetBuf.length ≤ 2 * 1024 * 1024)
    (hcomp : (compress packetBuf).length + 5 < 2 ^ 31) :
    encodeFrame compress threshold packetBuf = some (
      if threshold = 0 then
        putVarInt packetBuf.length ++ packetBuf
      else if packetBuf.length ≤ threshold then
        putVarInt ((packetBuf.length : Int) + 1) ++ putVarInt 0 ++ packetBuf
      else
        putVarInt ((putVarInt (packetBuf.length : Int)).length + (compress packetBuf).length)
          ++ putVarInt (packetBuf.length : Int) ++ compress packetBuf) := by
  have hL31 : packetBuf.length < 2 ^ 31 := by omega
  unfold encodeFrame
  rw [if_neg (by unfold packetSizeLimit; omega)]
  by_cases h0 : threshold = 0
  · subst h0
    rw [i32cast_small _ hL31]
    simp
  · rw [if_pos (by omega), if_neg h0]
    by_cases h1 : packetBuf.length ≤ threshold
    · rw [if_neg (by omega), if_pos h1]
      rw [i32cast_small _ hL31]
    · rw [if_pos (by omega), if_neg h1]
      rw [i32cast_small _ hL31]
      have hsize : calcVarIntSize (packetBuf.length : Int)
          = (putVarInt (packetBuf.length : Int)).length := by
        rw [calcVarIntSize_eq _ (by omega) (by omega), putVarInt_natCast _ hL31]
        simp
      have hfit : (putVarInt (packetBuf.length : Int)).length
          + (compress packetBuf).length < 2 ^ 31 := by
        have := putVarInt_length_le packetBuf.length (by omega)
        omega
      show some (putVarInt (i32cast (calcVarIntSize (packetBuf.length : Int)
          + (compress packetBuf).length)) ++ putVarInt (packetBuf.length : Int)
          ++ compress packetBuf) = _
      rw [hsize, i32cast_small _ hfit]
      push_cast
      ring_nf

/-- C1, witness: threshold 2, buffer `[1, 2, 3]` (compressed branch, with a
stand-in compressor). -/
theorem claim_C1_witness :
    encodeFrame (fun _ => [9, 9]) 2 [1, 2, 3] = some [3, 3, 9, 9] := by
  rw [claim_C1 (fun _ => [9, 9]) 2 [1, 2, 3] (by decide) (by decide)]
  decide

theorem putVarInt_zero : putVarInt 0 = [0] := rfl

/-- C2, counterexample: the claim asks that a phase-appropriate codec cycle
return `Some` of a packet with the original's fields for *every* variant.
For `S03LoginCompression { threshold: 256 }` (its phase is Login) with
compression off on both sides, the encoder produces the frame
`[3, 3, 128, 2]` and the decoder returns `Ok(None)` on it — no packet at
all — because `decode_login_packet` only constructs `C00LoginStart`
(opcode 0x00): this server's decoder builds only client-bound variants,
while its encoder accepts only server-bound ones, so the cycle cannot
return the original variant. -/
theorem claim_C2_cx :
    encode id 0 (.s03LoginCompression 256) = some [3, 3, 128, 2]
    ∧ decode id ⟨0, .login, .header⟩ [3, 3, 128, 2]
        = .ok (none, ⟨0, .login, .header⟩, []) := by
  decide

/-- C2, amended: what does hold of the cycle is the frame-level round trip.
Whenever the encoder frames a packet buffer (with `decompress ∘ compress =
id` for the zlib pair and the frame within the 2-MiB limit — hypotheses
`hlen2`/`hlen3` exclude only the boundary where an encoded frame itself
exceeds the limit), running the decoder on the emitted bytes consumes them
entirely and hands the *original packet buffer* to the phase dispatcher:
`decode (encodeFrame buf) = decodePayload buf`, for both threshold = 0 and
threshold > 0.  The packet-level equation of the claim fails
(`claim_C2_cx`). -/
theorem claim_C2 (compress decompress : List Nat → List Nat) (threshold : Nat)
    (phase : PlayState) (packetBuf frame : List Nat)
    (hzlib : decompress (compress packetBuf) = packetBuf)
    (hlen : packetBuf.length ≤ packetSizeLimit)
    (hlen2 : 0 < threshold → packetBuf.length ≤ threshold →
      packetBuf.length + 1 ≤ packetSizeLimit)
    (hlen3 : 0 < threshold → threshold < packetBuf.length →
      calcVarIntSize (packetBuf.length : Int) + (compress packetBuf).length ≤ packetSizeLimit)
    (henc : encodeFrame compress threshold packetBuf = some frame) :
    decode decompress ⟨threshold, phase, .header⟩ frame
      = (decodePayload phase packetBuf).map
          (fun r => (r, (⟨threshold, phase, .header⟩ : CodecState), [])) := by
  have hlim : packetSizeLimit = 2 * 1024 * 1024 := rfl
  have hL28 : packetBuf.length < 2 ^ 28 := by omega
  have hL31 : packetBuf.length < 2 ^ 31 := by omega
  unfold encodeFrame at henc
  rw [if_neg (by omega)] at henc
  by_cases h0 : 0 < threshold
  · rw [if_pos h0] at henc
    by_cases h1 : threshold < packetBuf.length
    · -- compressed path
      rw [if_pos h1] at henc
      simp only [] at henc
      have hsize : calcVarIntSize (packetBuf.length : Int)
          = (putVarInt (packetBuf.length : Int)).length := by
        rw [calcVarIntSize_eq _ (by omega) (by omega), putVarInt_natCast _ hL31]
        simp
      have hPL := hlen3 h0 h1
      rw [i32cast_small _ hL31] at henc
      rw [show i32cast (calcVarIntSize (packetBuf.length : Int) + (compress packetBuf).length)
          = ((calcVarIntSize (packetBuf.length : Int) + (compress packetBuf).length : Nat) : Int)
        from i32cast_small _ (by omega)] at henc
      set PL : Nat := calcVarIntSize (packetBuf.length : Int) + (compress packetBuf).length
        with hPLdef
      obtain rfl : putVarInt (PL : Int) ++ putVarInt (packetBuf.length : Int)
          ++ compress packetBuf = frame := by
        injection henc
      have hplen : (putVarInt (packetBuf.length : Int) ++ compress packetBuf).length = PL := by
        simp [hPLdef, hsize]
      rw [List.append_assoc]
      have hc1 := hasCompleteVarInt_putVarInt PL (by omega)
        (putVarInt (packetBuf.length : Int) ++ compress packetBuf)
      have hc2 := getVarInt_putVarInt PL (by omega)
        (putVarInt (packetBuf.length : Int) ++ compress packetBuf)
      have hc3 := getVarInt_putVarInt packetBuf.length hL28 (compress packetBuf)
      have htake := List.take_of_length_le hplen.le
      have hdrop := List.drop_eq_nil_of_le hplen.le
      have hn1 : ¬ (packetSizeLimit < PL) := by omega
      have hn2 : ¬ ((putVarInt (packetBuf.length : Int) ++ compress packetBuf).length < PL) := by
        omega
      have hpL : 0 < packetBuf.length := by omega
      have hplen2 : (putVarInt (packetBuf.length : Int)).length + (compress packetBuf).length
          = PL := by
        simpa using hplen
      have hn2b : ¬ ((putVarInt (packetBuf.length : Int)).length
          + (compress packetBuf).length < PL) := by omega
      simp [decode, decodeBody, hc1, hc2, hc3, htake, hdrop, hn1, hn2, hn2b, h0, hpL, hzlib]
    · -- uncompressed-below-threshold path
      rw [if_neg h1] at henc
      have hL1 := hlen2 h0 (by omega)
      rw [i32cast_small _ hL31] at henc
      rw [show ((packetBuf.length : Int) + 1) = ((packetBuf.length + 1 : Nat) : Int) by
        push_cast; ring] at henc
      rw [putVarInt_zero] at henc
      obtain rfl : putVarInt ((packetBuf.length + 1 : Nat) : Int) ++ [0] ++ packetBuf
          = frame := by
        injection henc
      rw [List.append_assoc]
      have hplen : (([0] : List Nat) ++ packetBuf).length = packetBuf.length + 1 := by simp
      have hc1 := hasCompleteVarInt_putVarInt (packetBuf.length + 1) (by omega)
        ([0] ++ packetBuf)
      have hc2 := getVarInt_putVarInt (packetBuf.length + 1) (by omega) ([0] ++ packetBuf)
      have hc3 : getVarInt (([0] : List Nat) ++ packetBuf) = some (0, packetBuf) := by
        simp [getVarInt, getVarIntAux]
      have htake := List.take_of_length_le hplen.le
      have hdrop := List.drop_eq_nil_of_le hplen.le
      have hn1 : ¬ (packetSizeLimit < packetBuf.length + 1) := by omega
      have hn2 : ¬ ((([0] : List Nat) ++ packetBuf).length < packetBuf.length + 1) := by
        omega
      simp only [Nat.cast_add, Nat.cast_one, List.singleton_append] at hc1 hc2 hc3 htake hdrop
      simp [decode, decodeBody, hc1, hc2, hc3, htake, hdrop, hn1, hn2, h0]
  · -- compression off
    rw [if_neg h0] at henc
    rw [i32cast_small _ hL31] at henc
    obtain rfl : putVarInt (packetBuf.length : Int) ++ packetBuf = frame := by
      injection henc
    have hc1 := hasCompleteVarInt_putVarInt packetBuf.length hL28 packetBuf
    have hc2 := getVarInt_putVarInt packetBuf.length hL28 packetBuf
    have hn1 : ¬ (packetSizeLimit < packetBuf.length) := by omega
    have hn2 : ¬ (packetBuf.length < packetBuf.length) := by omega
    simp [decode, decodeBody, hc1, hc2, hn1, hn2, h0]

/-- C2, witness for the amended theorem: a `C10SetCreativeSlot` frame in the
Play phase, compression off, decodes back to the packet the dispatcher
yields on the raw buffer. -/
theorem claim_C2_witness :
    decode id ⟨0, .play, .header⟩ [5, 16, 0, 1, 255, 255]
      = (decodePayload .play [16, 0, 1, 255, 255]).map
          (fun r => (r, (⟨0, .play, .header⟩ : CodecState), [])) :=
  claim_C2 id id 0 .play [16, 0, 1, 255, 255] [5, 16, 0, 1, 255, 255]
    rfl (by decide) (by omega) (by omega) (by decide)

/-- C10, counterexample: the claim states the hotbar lookup
`inventory[36 + selected_slot]` is in bounds *only* when
`0 ≤ selected_slot ≤ 8`.  At `selected_slot = -1` the index is `36 - 1 =
35 < 45`, so the access is in bounds (silently reading a main-inventory
slot) even though `-1` is outside the claimed range. -/
theorem claim_C10_cx :
    (itemStackInHotbar (Player.new 1 0 .creative) (-1)).isSome = true
    ∧ ((-1 : Int) < 0) := by
  decide

/-- C10, amended: with the 45-slot inventory, `inventory[slot_id]` (and the
`C10SetCreativeSlot` handler built on it) is in bounds exactly when
`0 ≤ slot_id ≤ 44` — every other `i16` value, all negatives included,
panics — while the hotbar lookup `inventory[36 + selected_slot]` used by the
`C08PlayerBlockPlacement` handler is in bounds exactly when
`-36 ≤ selected_slot ≤ 8` (for `-36 ≤ s ≤ -1` it silently addresses a
non-hotbar slot). -/
theorem claim_C10 (st : HandlerState) (item : ItemStack) (id : Int)
    (hlen : st.player.inventory.length = 45)
    (h1 : -(2 ^ 15) ≤ id) (h2 : id < 2 ^ 15) :
    ((itemStackAt st.player id).isSome ↔ 0 ≤ id ∧ id ≤ 44)
    ∧ ((handleSetCreativeSlot st id item).isSome ↔ 0 ≤ id ∧ id ≤ 44)
    ∧ ((itemStackInHotbar st.player id).isSome ↔ -36 ≤ id ∧ id ≤ 8) := by
  have hsome : ∀ j : Int, (itemStackAt st.player j).isSome ↔ usizeCast j < 45 := by
    intro j
    unfold itemStackAt
    constructor
    · intro h
      by_contra hn
      rw [List.get?_eq_none.mpr (by omega)] at h
      simp at h
    · intro h
      rw [List.get?_eq_get (by omega)]
      simp
  refine ⟨?_, ?_, ?_⟩
  · rw [hsome id]
    unfold usizeCast
    omega
  · unfold handleSetCreativeSlot
    have hiff := hsome id
    rcases hopt : itemStackAt st.player id with _ | s
    · rw [hopt] at hiff
      simp at hiff
      unfold usizeCast at hiff
      simp [hopt]
      omega
    · rw [hopt] at hiff
      simp at hiff
      unfold usizeCast at hiff
      simp [hopt]
      omega
  · unfold itemStackInHotbar
    rw [hsome (i16wrap (36 + id))]
    unfold i16wrap usizeCast
    omega

/-- C10, witness for the amended theorem at the boundary slot 8. -/
theorem claim_C10_witness :
    ((itemStackAt (Player.new 1 0 .survival) 8).isSome ↔ (0 : Int) ≤ 8 ∧ (8 : Int) ≤ 44)
    ∧ ((handleSetCreativeSlot ⟨Player.new 1 0 .survival, [], ⟨0, 0⟩⟩ 8 ItemStack.default).isSome
        ↔ (0 : Int) ≤ 8 ∧ (8 : Int) ≤ 44)
    ∧ ((itemStackInHotbar (Player.new 1 0 .survival) 8).isSome
        ↔ -36 ≤ (8 : Int) ∧ (8 : Int) ≤ 8) :=
  claim_C10 ⟨Player.new 1 0 .survival, [], ⟨0, 0⟩⟩ ItemStack.default 8 (by decide)
    (by decide) (by decide)

theorem splitSpaces_no_space (w : List Nat) (h : ¬ 32 ∈ w) : splitSpaces w = [w] := by
  induction w with
  | nil => rfl
  | cons b rest ih =>
    rw [splitSpaces]
    have hb : ¬ (b = 32) := by simp at h; omega
    rw [if_neg hb, ih (by simp at h; tauto)]

theorem splitSpaces_token (t rest : List Nat) (h : ¬ 32 ∈ t) :
    splitSpaces (t ++ 32 :: rest) = t :: splitSpaces rest := by
  induction t with
  | nil =>
    rw [List.nil_append, splitSpaces]
    simp
  | cons b t2 ih =>
    rw [List.cons_append, splitSpaces]
    have hb : ¬ (b = 32) := by simp at h; omega
    rw [if_neg hb, ih (by simp at h; tauto)]

/-- C9, counterexample: the claim states that `/gm` with any argument
outside `0..3` earns the player a position-1 `"§cError:"` chat reply while
the session continues with `game_mode` unchanged.  For `/gm 4` the argument
*does* parse as a `u8`, so no parse-error reply is produced; instead
`GameMode::from(4)` panics (`"Invalid game mode 4"`), killing the session
task — the handler returns no reply at all. -/
theorem claim_C9_cx :
    handleCommand (fun _ => none) (fun _ => []) ⟨Player.new 1 0 .survival, [], ⟨0, 0⟩⟩
      [47, 103, 109, 32, 52] = none := by
  decide

theorem commandParse_arg (cmd w : List Nat) (h1 : ¬ 32 ∈ cmd) (h2 : ¬ 32 ∈ w) :
    commandParse ([47] ++ cmd ++ [32] ++ w) = [cmd, w] := by
  unfold commandParse
  have hshape : ([47] ++ cmd ++ [32] ++ w : List Nat).drop 1 = cmd ++ 32 :: w := by
    simp
  rw [hshape, splitSpaces_token cmd w h1, splitSpaces_no_space w h2]

theorem commandParse_noArg (cmd : List Nat) (h : ¬ 32 ∈ cmd) :
    commandParse ([47] ++ cmd) = [cmd] := by
  unfold commandParse
  have hshape : ([47] ++ cmd : List Nat).drop 1 = cmd := by simp
  rw [hshape, splitSpaces_no_space cmd h]

/-- C9, amended: for every slash-command taking an argument — `/gm`,
`/flyspeed`, `/walkspeed` — an argument that is missing or fails to parse
(as `u8` for `/gm`: non-numeric, negative, or above 255; as `f32` for the
speed commands) earns the sender a position-1 chat reply beginning
`"§cError: "` (`"Missing argument 1"` when absent, `"Argument 1 is not
valid"` otherwise), the session continues and the whole handler state — the
player's `game_mode` included — is unchanged; but a `/gm` argument that
parses as `u8` yet lies in `4..=255` panics in `GameMode::from` instead of
being reported (`claim_C9_cx`). -/
theorem claim_C9 (parse32 : List Nat → Option Nat) (fmt32 : Nat → List Nat)
    (st : HandlerState) (w : List Nat) (hnospace : ¬ 32 ∈ w) :
    (parseU8 w = none →
      handleCommand parse32 fmt32 st ([47] ++ strGm ++ [32] ++ w)
        = some ([.send (chatPacket 1 (errPre ++ msgArgNotValid 1))], st))
    ∧ (handleCommand parse32 fmt32 st ([47] ++ strGm)
        = some ([.send (chatPacket 1 (errPre ++ msgMissingArg 1))], st))
    ∧ (parse32 w = none →
      handleCommand parse32 fmt32 st ([47] ++ strFly ++ [32] ++ w)
        = some ([.send (chatPacket 1 (errPre ++ msgArgNotValid 1))], st))
    ∧ (handleCommand parse32 fmt32 st ([47] ++ strFly)
        = some ([.send (chatPacket 1 (errPre ++ msgMissingArg 1))], st))
    ∧ (parse32 w = none →
      handleCommand parse32 fmt32 st ([47] ++ strWalk ++ [32] ++ w)
        = some ([.send (chatPacket 1 (errPre ++ msgArgNotValid 1))], st))
    ∧ (handleCommand parse32 fmt32 st ([47] ++ strWalk)
        = some ([.send (chatPacket 1 (errPre ++ msgMissingArg 1))], st)) := by
  refine ⟨?_, ?_, ?_, ?_, ?_, ?_⟩
  · intro hbad
    unfold handleCommand execCommand
    rw [commandParse_arg strGm w (by decide) hnospace]
    simp [commandName, strHelp, strGm, strFly, strWalk, commandArgU8, commandArgStr, hbad]
  · unfold handleCommand execCommand
    rw [commandParse_noArg strGm (by decide)]
    simp [commandName, strHelp, strGm, strFly, strWalk, commandArgU8, commandArgStr]
  · intro hbad
    unfold handleCommand execCommand
    rw [commandParse_arg strFly w (by decide) hnospace]
    simp [commandName, strHelp, strGm, strFly, strWalk, commandArgF32, commandArgStr, hbad]
  · unfold handleCommand execCommand
    rw [commandParse_noArg strFly (by decide)]
    simp [commandName, strHelp, strGm, strFly, strWalk, commandArgF32, commandArgStr]
  · intro hbad
    unfold handleCommand execCommand
    rw [commandParse_arg strWalk w (by decide) hnospace]
    simp [commandName, strHelp, strGm, strFly, strWalk, commandArgF32, commandArgStr, hbad]
  · unfold handleCommand execCommand
    rw [commandParse_noArg strWalk (by decide)]
    simp [commandName, strHelp, strGm, strFly, strWalk, commandArgF32, commandArgStr]

/-- C9, witness: `/gm x`, `/gm`, `/flyspeed x`, `/flyspeed`, `/walkspeed x`
and `/walkspeed` with a concrete state and an `f32` grammar that rejects
`"x"`. -/
theorem claim_C9_witness :
    (handleCommand (fun _ => none) (fun _ => []) ⟨Player.new 1 0 .survival, [], ⟨0, 0⟩⟩
        ([47] ++ strGm ++ [32] ++ [120])
      = some ([.send (chatPacket 1 (errPre ++ msgArgNotValid 1))],
          ⟨Player.new 1 0 .survival, [], ⟨0, 0⟩⟩))
    ∧ (handleCommand (fun _ => none) (fun _ => []) ⟨Player.new 1 0 .survival, [], ⟨0, 0⟩⟩
        ([47] ++ strGm)
      = some ([.send (chatPacket 1 (errPre ++ msgMissingArg 1))],
          ⟨Player.new 1 0 .survival, [], ⟨0, 0⟩⟩))
    ∧ (handleCommand (fun _ => none) (fun _ => []) ⟨Player.new 1 0 .survival, [], ⟨0, 0⟩⟩
        ([47] ++ strFly ++ [32] ++ [120])
      = some ([.send (chatPacket 1 (errPre ++ msgArgNotValid 1))],
          ⟨Player.new 1 0 .survival, [], ⟨0, 0⟩⟩))
    ∧ (handleCommand (fun _ => none) (fun _ => []) ⟨Player.new 1 0 .survival, [], ⟨0, 0⟩⟩
        ([47] ++ strFly)
      = some ([.send (chatPacket 1 (errPre ++ msgMissingArg 1))],
          ⟨Player.new 1 0 .survival, [], ⟨0, 0⟩⟩))
    ∧ (handleCommand (fun _ => none) (fun _ => []) ⟨Player.new 1 0 .survival, [], ⟨0, 0⟩⟩
        ([47] ++ strWalk ++ [32] ++ [120])
      = some ([.send (chatPacket 1 (errPre ++ msgArgNotValid 1))],
          ⟨Player.new 1 0 .survival, [], ⟨0, 0⟩⟩))
    ∧ (handleCommand (fun _ => none) (fun _ => []) ⟨Player.new 1 0 .survival, [], ⟨0, 0⟩⟩
        ([47] ++ strWalk)
      = some ([.send (chatPacket 1 (errPre ++ msgMissingArg 1))],
          ⟨Player.new 1 0 .survival, [], ⟨0, 0⟩⟩)) := by
  have h := claim_C9 (fun _ => none) (fun _ => [])
    ⟨Player.new 1 0 .survival, [], ⟨0, 0⟩⟩ [120] (by decide)
  exact ⟨h.1 (by decide), h.2.1, h.2.2.1 rfl, h.2.2.2.1, h.2.2.2.2.1 rfl, h.2.2.2.2.2⟩

theorem collectChunks_nodup (w : World) : ∀ (ps known : List ChunkPos), known.Nodup →
    (collectChunks w ps known).2.Nodup := by
  intro ps
  induction ps with
  | nil => intro known h; exact h
  | cons p rest ih =>
    intro known h
    rw [collectChunks]
    rcases hg : World.getChunk w p with _ | chunk
    · exact ih known h
    · by_cases hm : p ∈ known
      · simp only [if_pos hm]
        exact ih known h
      · simp only [if_neg hm]
        have h2 : (known ++ [p]).Nodup := by
          simp [List.nodup_append, h, hm]
        have := ih (known ++ [p]) h2
        simpa using this

theorem collectChunks_mem (w : World) : ∀ (ps known : List ChunkPos) (c : Chunk),
    c ∈ (collectChunks w ps known).1 →
    ∃ pos, pos ∈ ps ∧ World.getChunk w pos = some c ∧ pos ∉ known := by
  intro ps
  induction ps with
  | nil => intro known c h; simp [collectChunks] at h
  | cons p rest ih =>
    intro known c h
    rw [collectChunks] at h
    rcases hg : World.getChunk w p with _ | chunk
    · rw [hg] at h
      obtain ⟨pos, h1, h2, h3⟩ := ih known c h
      exact ⟨pos, by simp [h1], h2, h3⟩
    · rw [hg] at h
      by_cases hm : p ∈ known
      · simp only [if_pos hm] at h
        obtain ⟨pos, h1, h2, h3⟩ := ih known c h
        exact ⟨pos, by simp [h1], h2, h3⟩
      · simp only [if_neg hm] at h
        rcases List.mem_cons.mp h with h1 | h1
        · refine ⟨p, by simp, ?_, hm⟩
          rw [hg, h1]
        · obtain ⟨pos, hp1, hp2, hp3⟩ := ih (known ++ [p]) c h1
          refine ⟨pos, by simp [hp1], hp2, ?_⟩
          intro hc
          exact hp3 (by simp [hc])

theorem collectChunks_covers (w : World) : ∀ (ps known : List ChunkPos) (pos : ChunkPos)
    (c : Chunk), pos ∈ ps → World.getChunk w pos = some c →
    c ∈ (collectChunks w ps known).1 ∨ pos ∈ known := by
  intro ps
  induction ps with
  | nil => intro known pos c h; simp at h
  | cons p rest ih =>
    intro known pos c hmem hg
    rw [collectChunks]
    by_cases hpq : pos = p
    · subst hpq
      rw [hg]
      by_cases hm : pos ∈ known
      · exact Or.inr hm
      · simp only [if_neg hm]
        left
        simp
    · have hrest : pos ∈ rest := by
        rcases List.mem_cons.mp hmem with h | h
        · exact absurd h hpq
        · exact h
      rcases hgq : World.getChunk w p with _ | chq
      · exact ih known pos c hrest hg
      · by_cases hm : p ∈ known
        · simp only [if_pos hm]
          exact ih known pos c hrest hg
        · simp only [if_neg hm]
          rcases ih (known ++ [p]) pos c hrest hg with h | h
          · left
            simp [h]
          · simp at h
            rcases h with h | h
            · exact Or.inr h
            · exact absurd h hpq

theorem groupsOf10Steps_flatten : ∀ (n : Nat) (l : List Chunk), l.length ≤ n →
    (groupsOf10Steps n l).flatten = l := by
  intro n
  induction n with
  | zero =>
    intro l h
    have : l = [] := List.eq_nil_of_length_eq_zero (by omega)
    simp [this, groupsOf10Steps]
  | succ m ih =>
    intro l h
    rw [groupsOf10Steps]
    by_cases he : l.isEmpty
    · simp [List.isEmpty_iff] at he
      simp [he, if_pos]
    · rw [if_neg he]
      simp [List.isEmpty_iff] at he
      have hlen : (l.drop 10).length ≤ m := by
        have : 1 ≤ l.length := by
          cases l
          · simp at he
          · simp
        simp
        omega
      simp [ih (l.drop 10) hlen]

theorem groupsOf10_flatten (l : List Chunk) : (groupsOf10 l).flatten = l :=
  groupsOf10Steps_flatten l.length l le_rfl

theorem getChunk_wf {w : World} {pos : ChunkPos} {c : Chunk} (hwf : worldWF w)
    (hg : World.getChunk w pos = some c) : c.x = pos.x ∧ c.z = pos.z := by
  unfold World.getChunk at hg
  rcases hf : w.find? (fun e => e.1 = pos) with _ | e
  · rw [hf] at hg; simp at hg
  · rw [hf] at hg
    simp at hg
    have hkey : e.1 = pos := by
      have := List.find?_some hf
      simpa using this
    have hmem : e ∈ w := List.mem_of_find?_eq_some hf
    have := hwf e hmem
    rw [hg] at this
    rw [← hkey]
    exact this

theorem sendChunks_nodup (w : World) (st : HandlerState) (cx cz r : Int)
    (hnd : st.knownChunks.Nodup) : (sendChunks w st cx cz r).2.knownChunks.Nodup := by
  unfold sendChunks
  simpa using collectChunks_nodup w (sendChunksPositions cx cz r) st.knownChunks hnd

/-- C8: the known-chunks set stays duplicate-free across `send_chunks` and
`update_chunks` (every `ChunkPos` occurs at most once), and no chunk whose
coordinate was already known when `send_chunks` began appears in any
`S26MapChunkBulk` it emits (under the world invariant that a stored chunk's
coordinate matches its key). -/
theorem claim_C8 (w : World) (st : HandlerState) (cx cz r : Int) (cfg : ServerConfig)
    (center : ChunkPos) (hwf : worldWF w) (hnd : st.knownChunks.Nodup) :
    (sendChunks w st cx cz r).2.knownChunks.Nodup
    ∧ (∀ e ∈ (sendChunks w st cx cz r).1, ∀ sky chunks,
        e = Effect.send (.s26MapChunkBulk sky chunks) →
        ∀ c ∈ chunks, ChunkPos.mk c.x c.z ∉ st.knownChunks)
    ∧ (updateChunks w cfg st center).2.knownChunks.Nodup := by
  refine ⟨sendChunks_nodup w st cx cz r hnd, ?_, ?_⟩
  · intro e he sky chunks hee c hc
    unfold sendChunks at he
    simp only at he
    rw [List.mem_map] at he
    obtain ⟨g, hg, hge⟩ := he
    rw [← hge] at hee
    have hchunks : chunks = g := by
      injection hee with h1
      injection h1 with _ h2
      exact h2.symm
    rw [hchunks] at hc
    have hcol : c ∈ (collectChunks w (sendChunksPositions cx cz r) st.knownChunks).1 := by
      rw [← groupsOf10_flatten (collectChunks w (sendChunksPositions cx cz r) st.knownChunks).1]
      exact List.mem_flatten.mpr ⟨g, hg, hc⟩
    obtain ⟨pos, _, hgc, hnk⟩ := collectChunks_mem w _ _ c hcol
    obtain ⟨hx, hz⟩ := getChunk_wf hwf hgc
    intro hck
    apply hnk
    have : ChunkPos.mk c.x c.z = pos := by
      obtain ⟨px, pz⟩ := pos
      simp at hx hz
      simp [hx, hz]
    rw [← this]
    exact hck
  · unfold updateChunks
    by_cases hc : st.currentChunkPos = center
    · simp [hc, hnd]
    · simp only [if_neg hc]
      have h1 := sendChunks_nodup w { st with currentChunkPos := center } center.x center.z
        cfg.viewDist hnd
      exact List.Nodup.filter _ h1

/-- C8, witness: a one-chunk world, empty known set. -/
theorem claim_C8_witness :
    ((sendChunks [(⟨0, 0⟩, Chunk.new 0 0)] ⟨Player.new 1 0 .survival, [], ⟨0, 0⟩⟩
        0 0 0).2.knownChunks.Nodup)
    ∧ (∀ e ∈ (sendChunks [(⟨0, 0⟩, Chunk.new 0 0)] ⟨Player.new 1 0 .survival, [], ⟨0, 0⟩⟩
        0 0 0).1, ∀ sky chunks, e = Effect.send (.s26MapChunkBulk sky chunks) →
        ∀ c ∈ chunks, ChunkPos.mk c.x c.z ∉ ([] : List ChunkPos))
    ∧ ((updateChunks [(⟨0, 0⟩, Chunk.new 0 0)] ⟨[], 4, .survival, 0, 0, 1⟩
        ⟨Player.new 1 0 .survival, [], ⟨0, 0⟩⟩ ⟨1, 1⟩).2.knownChunks.Nodup) :=
  claim_C8 [(⟨0, 0⟩, Chunk.new 0 0)] ⟨Player.new 1 0 .survival, [], ⟨0, 0⟩⟩ 0 0 0
    ⟨[], 4, .survival, 0, 0, 1⟩ ⟨1, 1⟩ (by decide) (by decide)

/-- C3, counterexample: the claim's login sequence ends in exactly one
`S08SetPlayerPosition { 0, 64, 0, 0, 0, 0 }`, but the handler (at
src/client.rs:187-195) spawns the player with `y: 69.0`: on a concrete login
the emitted effects contain no position packet whose y is 64.0 and exactly
one whose y is 69.0 (the two `f64` bit patterns differ). -/
theorem claim_C3_cx :
    ((handleLoginStart ⟨[], 4, .creative, 0, 256, 1⟩ []
        ⟨Player.new 7 0 .creative, [], ⟨0, 0⟩⟩ [97, 100, 97]).1.count
        (Effect.send (.s08SetPlayerPosition 0 f64Bits64 0 0 0 0)) = 0)
    ∧ ((handleLoginStart ⟨[], 4, .creative, 0, 256, 1⟩ []
        ⟨Player.new 7 0 .creative, [], ⟨0, 0⟩⟩ [97, 100, 97]).1.count
        (Effect.send (.s08SetPlayerPosition 0 f64Bits69 0 0 0 0)) = 1)
    ∧ f64Bits69 ≠ f64Bits64 := by
  decide

/-- C3, amended: on `C00LoginStart { username }` (session known-chunks set
still empty, world satisfying the key invariant) the handler emits, in this
order: the player-counter bump; `S03LoginCompression` with the configured
threshold; the codec threshold change; `S02LoginSuccess { uuid, username }`;
the codec phase change to Play; `S01JoinGame`; the `S26MapChunkBulk` frames
whose chunks cover exactly the chunks present in the view-distance square
around (0, 0); exactly one `S08SetPlayerPosition { 0, 69, 0, 0, 0, 0 }`
(y = 69, not the 64 of the claim); then the join-chat broadcast and the
player-list broadcast. -/
theorem claim_C3 (cfg : ServerConfig) (w : World) (st : HandlerState) (username : List Nat)
    (hknown : st.knownChunks = []) (hwf : worldWF w) :
    ∃ (bulks : List (List Chunk)) (known2 : List ChunkPos),
      handleLoginStart cfg w st username =
        ( Effect.incPlayers 1
          :: .send (.s03LoginCompression (i32cast cfg.netCompression))
          :: .setThreshold cfg.netCompression
          :: .send (.s02LoginSuccess (uuidString st.player.uuid) username)
          :: .setPhase .play
          :: .send (.s01JoinGame st.player.eid st.player.gameMode 0 cfg.difficulty 4
              worldTypeDefault false)
          :: (bulks.map (fun g => Effect.send (.s26MapChunkBulk true g))
            ++ [ .send (.s08SetPlayerPosition 0 f64Bits69 0 0 0 0),
                 .broadcast (chatPacket 1 (joinedMsg username)),
                 .broadcast (.s38PlayerListItem st.player.uuid
                   (.addPlayer username st.player.gameMode 0 none)) ]),
          { st with player := { st.player with username := username },
                    knownChunks := known2 })
      ∧ (∀ p : ChunkPos,
          (∃ g ∈ bulks, ∃ c ∈ g, c.x = p.x ∧ c.z = p.z)
          ↔ (World.getChunk w p).isSome ∧ p ∈ sendChunksPositions 0 0 cfg.viewDist) := by
  refine ⟨groupsOf10 (collectChunks w (sendChunksPositions 0 0 cfg.viewDist) []).1,
    (collectChunks w (sendChunksPositions 0 0 cfg.viewDist) []).2, ?_, ?_⟩
  · unfold handleLoginStart sendChunks
    simp [hknown]
  · intro p
    constructor
    · rintro ⟨g, hg, c, hc, hx, hz⟩
      have hcol : c ∈ (collectChunks w (sendChunksPositions 0 0 cfg.viewDist) []).1 := by
        rw [← groupsOf10_flatten (collectChunks w (sendChunksPositions 0 0 cfg.viewDist) []).1]
        exact List.mem_flatten.mpr ⟨g, hg, hc⟩
      obtain ⟨pos, hpos, hgc, _⟩ := collectChunks_mem w _ _ c hcol
      obtain ⟨hwx, hwz⟩ := getChunk_wf hwf hgc
      have hpp : p = pos := by
        obtain ⟨px, pz⟩ := p
        obtain ⟨qx, qz⟩ := pos
        simp_all
      subst hpp
      exact ⟨by rw [hgc]; rfl, hpos⟩
    · rintro ⟨hsome, hmem⟩
      rcases hopt : World.getChunk w p with _ | c
      · rw [hopt] at hsome; simp at hsome
      · rcases collectChunks_covers w (sendChunksPositions 0 0 cfg.viewDist) [] p c hmem hopt
          with hcol | hfalse
        · obtain ⟨g, hg, hcg⟩ := List.mem_flatten.mp (by
            rw [groupsOf10_flatten]
            exact hcol)
          obtain ⟨hwx, hwz⟩ := getChunk_wf hwf hopt
          exact ⟨g, hg, c, hcg, hwx, hwz⟩
        · simp at hfalse

/-- C3, witness for the amended theorem: view distance 0, one chunk at
(0, 0), username `"ada"`. -/
theorem claim_C3_witness :
    ∃ (bulks : List (List Chunk)) (known2 : List ChunkPos),
      handleLoginStart ⟨[], 4, .creative, 0, 256, 0⟩ [(⟨0, 0⟩, Chunk.new 0 0)]
          ⟨Player.new 7 0 .creative, [], ⟨0, 0⟩⟩ [97, 100, 97] =
        ( Effect.incPlayers 1
          :: .send (.s03LoginCompression (i32cast 256))
          :: .setThreshold 256
          :: .send (.s02LoginSuccess (uuidString 0) [97, 100, 97])
          :: .setPhase .play
          :: .send (.s01JoinGame 7 .creative 0 0 4 worldTypeDefault false)
          :: (bulks.map (fun g => Effect.send (.s26MapChunkBulk true g))
            ++ [ .send (.s08SetPlayerPosition 0 f64Bits69 0 0 0 0),
                 .broadcast (chatPacket 1 (joinedMsg [97, 100, 97])),
                 .broadcast (.s38PlayerListItem 0
                   (.addPlayer [97, 100, 97] .creative 0 none)) ]),
          { player := { Player.new 7 0 .creative with username := [97, 100, 97] },
            knownChunks := known2, currentChunkPos := ⟨0, 0⟩ })
      ∧ (∀ p : ChunkPos,
          (∃ g ∈ bulks, ∃ c ∈ g, c.x = p.x ∧ c.z = p.z)
          ↔ (World.getChunk [(⟨0, 0⟩, Chunk.new 0 0)] p).isSome
            ∧ p ∈ sendChunksPositions 0 0 0) :=
  claim_C3 ⟨[], 4, .creative, 0, 256, 0⟩ [(⟨0, 0⟩, Chunk.new 0 0)]
    ⟨Player.new 7 0 .creative, [], ⟨0, 0⟩⟩ [97, 100, 97] rfl (by decide)
